import Mathlib

/-!
Shallow embedding of the govuk-frontend-experiments sources:

* `src/unnamed/part_000` — the `ServiceHeader` component
  (service-header.mjs), the fixture-loading module (`files.js`) and the
  `GOVUKFrontendComponent` base class (govuk-frontend-component.mjs);
* `src/src/govuk/components/checkboxes/checkboxes.mjs` — the `Checkboxes`
  component.

DOM elements are modelled as records of the fields the code reads and
writes; `document.querySelectorAll` order is list order; attribute maps
are association lists; JavaScript truthiness of `getAttribute` results
(`null` or the empty string are falsy) is modelled explicitly.
-/

namespace GovukFrontend

/-- JavaScript truthiness of a `getAttribute` result: `null` (here `none`)
and the empty string are falsy, every other string is truthy. -/
def jsTruthy : Option String → Bool
  | none => false
  | some s => s ≠ ""

/-- String-keyed property lookup, used both for `Element.getAttribute`
(`α = String`) and for reading a plain JavaScript object's property. -/
def getAttr (attrs : List (String × α)) (k : String) : Option α :=
  (attrs.find? (fun p => p.1 = k)).map (·.2)

/-- String-keyed property write: overwrite in place when the key exists,
append otherwise. This is both `Element.setAttribute` and JavaScript
object property assignment `obj[k] = v`. -/
def setAttr (attrs : List (String × α)) (k : String) (v : α) : List (String × α) :=
  if attrs.any (fun p => p.1 = k) then
    attrs.map (fun p => if p.1 = k then (k, v) else p)
  else
    attrs ++ [(k, v)]

/-- `Element.removeAttribute`. -/
def removeAttr (attrs : List (String × String)) (k : String) : List (String × String) :=
  attrs.filter (fun p => p.1 ≠ k)

/-- Index of the first list element satisfying `p` (used to model
`document.getElementById`, which returns the first element with the
requested id). -/
def findFirstIdx (p : α → Bool) : List α → Option Nat
  | [] => none
  | a :: as => if p a then some 0 else (findFirstIdx p as).map (· + 1)

/-- Modify the element at index `n` of a list, leaving other indices alone. -/
def modifyIdx (f : α → α) : Nat → List α → List α
  | _, [] => []
  | 0, a :: as => f a :: as
  | n + 1, a :: as => a :: modifyIdx f n as

theorem modifyIdx_nil (f : α → α) (n : Nat) : modifyIdx f n ([] : List α) = [] := by
  cases n <;> rfl

theorem modifyIdx_length (f : α → α) (n : Nat) (l : List α) :
    (modifyIdx f n l).length = l.length := by
  induction l generalizing n with
  | nil => rw [modifyIdx_nil]
  | cons a as ih =>
    cases n with
    | zero => rfl
    | succ n => simp [modifyIdx, ih]

theorem modifyIdx_get_ne (f : α → α) (n k : Nat) (l : List α) (h : k ≠ n) :
    (modifyIdx f n l).get? k = l.get? k := by
  induction l generalizing n k with
  | nil => rw [modifyIdx_nil]
  | cons a as ih =>
    cases n with
    | zero =>
      cases k with
      | zero => exact absurd rfl h
      | succ k => rfl
    | succ n =>
      cases k with
      | zero => rfl
      | succ k =>
        simp only [modifyIdx, List.get?]
        exact ih n k (fun hk => h (by simp [hk]))

theorem modifyIdx_get_eq (f : α → α) (n : Nat) (l : List α) :
    (modifyIdx f n l).get? n = (l.get? n).map f := by
  induction l generalizing n with
  | nil => rw [modifyIdx_nil]; rfl
  | cons a as ih =>
    cases n with
    | zero => rfl
    | succ n => exact ih n

/-! ## ServiceHeader (`src/unnamed/part_000`, service-header.mjs) -/

/-- The DOM attributes the ServiceHeader reads and writes: the `hidden`
attribute on the menu and on the menu button, and the button's
`aria-expanded` attribute. -/
structure SHDom where
  menuHidden : Bool
  buttonHidden : Bool
  buttonAriaExpanded : Option String
  deriving DecidableEq, Repr

/-- `ServiceHeader.checkMode`, body of the attribute-toggling branch
(the guard on `mql`, `$menu`, `$menuButton` lives in `checkModeS`).
`matches` is `this.mql.matches`; `menuIsOpen` is `this.menuIsOpen`. -/
def checkMode (mqlMatches menuIsOpen : Bool) (dom : SHDom) : SHDom :=
  if mqlMatches then
    { dom with menuHidden := false, buttonHidden := true }
  else
    { menuHidden := !menuIsOpen
      buttonHidden := false
      buttonAriaExpanded := some (toString menuIsOpen) }

/-- Instance state of a ServiceHeader: which element fields are set
(`mql`, `$menu`, `$menuButton` are `null`/`undefined` until assigned),
the `menuIsOpen` flag, and the DOM it acts on. -/
structure SHState where
  hasMql : Bool
  hasMenu : Bool
  hasMenuButton : Bool
  menuIsOpen : Bool
  dom : SHDom
  deriving DecidableEq, Repr

/-- `ServiceHeader.checkMode` including its early-return guard. -/
def checkModeS (mqlMatches : Bool) (s : SHState) : SHState :=
  if !s.hasMql || !s.hasMenu || !s.hasMenuButton then s
  else { s with dom := checkMode mqlMatches s.menuIsOpen s.dom }

/-- `ServiceHeader.handleMenuButtonClick`: toggle `menuIsOpen`, then run
`checkMode`. -/
def handleMenuButtonClick (mqlMatches : Bool) (s : SHState) : SHState :=
  checkModeS mqlMatches { s with menuIsOpen := !s.menuIsOpen }

/-- The errors ServiceHeader construction can raise: `SupportError` from the
base-class support check, `ElementError` for a missing DOM requirement
(the string is the error identifier). -/
inductive SHError where
  | supportError (msg : String)
  | elementError (identifier : String)
  deriving DecidableEq, Repr

/-- The menu toggle button found by
`$module.querySelector` with class `govuk-js-service-header-toggle`:
the only thing read from it is its `aria-controls` attribute. -/
structure MenuButton where
  ariaControls : Option String
  deriving DecidableEq, Repr

/-- The `$module` element passed to the constructor: the constructor only
queries it for the toggle button. -/
structure SHModule where
  menuButton : Option MenuButton
  deriving DecidableEq, Repr

/-- Result of running the ServiceHeader constructor: the error thrown (if
any), the DOM as left behind, whether the media-query-list `change`
listener and the button `click` listener were attached, and the
constructed instance state (when no error was thrown). -/
structure SHCtorResult where
  error : Option SHError
  dom : SHDom
  mqlListenerAttached : Bool
  clickListenerAttached : Bool
  component : Option SHState
  deriving DecidableEq, Repr

/-- `ServiceHeader.setupResponsiveChecks` as called from the constructor.
`breakpointValue` is `getBreakpoint('tablet').value` (a CSS custom
property read from the page, `undefined` when absent); `mqlMatches` is
the `matches` state of the created media query list. It attaches the
media-query listener and then runs `checkMode` once. Returns the error
(if any), the resulting DOM, whether the mql listener was attached, and
the updated DOM state after the initial `checkMode`. -/
def setupResponsiveChecks (breakpointValue : Option String) (mqlMatches : Bool)
    (dom : SHDom) : Option SHError × SHDom × Bool :=
  if !(jsTruthy breakpointValue) then
    (some (.elementError "CSS custom property (breakpoint) on pseudo-class :root"),
      dom, false)
  else
    -- `this.mql = window.matchMedia(...)`; listener attached; `this.checkMode()`
    (none, checkMode mqlMatches false dom, true)

/-- The `ServiceHeader` constructor. `supportMsg` is the result of
`getSupportedLevelMessage()` consumed by the base-class `super()` call;
`module?` is the `$module` argument (`none` for `null`); `docIds` are
the element ids present in the document (`document.getElementById`);
`breakpointValue` and `mqlMatches` feed `setupResponsiveChecks`. -/
def ServiceHeader.construct (supportMsg : String) (module? : Option SHModule)
    (docIds : List String) (breakpointValue : Option String) (mqlMatches : Bool)
    (dom : SHDom) : SHCtorResult :=
  -- super(): GOVUKFrontendComponent.checkSupport
  if supportMsg ≠ "OK" then
    ⟨some (.supportError supportMsg), dom, false, false, none⟩
  else
    match module? with
    | none =>
      ⟨some (.elementError "Root element ($module)"), dom, false, false, none⟩
    | some m =>
      match m.menuButton with
      | none =>
        -- `if (!$menuButton) return this`: $menu, $menuButton, mql stay unset
        ⟨none, dom, false, false, some ⟨false, false, false, false, dom⟩⟩
      | some btn =>
        if !(jsTruthy btn.ariaControls) then
          ⟨some (.elementError
            "Navigation button (govuk-js-service-header-toggle) attribute (aria-controls)"),
            dom, false, false, none⟩
        else
          if !(docIds.contains (btn.ariaControls.getD "")) then
            ⟨some (.elementError ("Navigation (ul id=" ++ btn.ariaControls.getD "" ++ ")")),
              dom, false, false, none⟩
          else
            match setupResponsiveChecks breakpointValue mqlMatches dom with
            | (some e, dom', mqlAttached) =>
              ⟨some e, dom', mqlAttached, false, none⟩
            | (none, dom', mqlAttached) =>
              -- then `this.$menuButton.addEventListener('click', ...)`
              ⟨none, dom', mqlAttached, true, some ⟨true, true, true, false, dom'⟩⟩

/-! ## GOVUKFrontendComponent (`src/unnamed/part_000`, govuk-frontend-component.mjs) -/

/-- `GOVUKFrontendComponent.checkSupport`: calls `getSupportedLevelMessage()`
and throws a `SupportError` when the message is not `'OK'`. The returned
list records each call made to `getSupportedLevelMessage` (its result),
so that "the check runs exactly once" is expressible. -/
def checkSupport (supportMsg : String) : List String × Option SHError :=
  ([supportMsg], if supportMsg ≠ "OK" then some (.supportError supportMsg) else none)

/-- The `GOVUKFrontendComponent` constructor: its whole body is
`this.checkSupport()`. -/
def GOVUKFrontendComponent.construct (supportMsg : String) :
    List String × Option SHError :=
  checkSupport supportMsg

/-! ## Checkboxes (`src/src/govuk/components/checkboxes/checkboxes.mjs`) -/

/-- A form input element as the Checkboxes component sees it: its `type`,
`name`, form owner (identified by a tag, `none` for no form), live
`checked` state, and its other attributes (`data-aria-controls`,
`aria-controls`, `data-behaviour`, `aria-expanded`) as an attribute
list. -/
structure ChkInput where
  typeAttr : String
  name : String
  form : Option Nat
  checked : Bool
  attrs : List (String × String)
  deriving DecidableEq, Repr

/-- An id-addressable element that a checkbox's `aria-controls` /
`data-aria-controls` can point at (a conditional-reveal container),
with its id and class list. -/
structure ChkTarget where
  id : String
  classes : List String
  deriving DecidableEq, Repr

/-- The document as the Checkboxes component sees it: all form inputs in
document order (`document.querySelectorAll` returns them in this
order), and the id-addressable reveal containers
(`document.getElementById` searches these; the checkbox inputs
themselves carry no id in this model). -/
structure ChkDoc where
  inputs : List ChkInput
  targets : List ChkTarget
  deriving DecidableEq, Repr

/-- `document.getElementById` restricted to reveal containers: index of the
first target with the given id. -/
def findTargetIdx (d : ChkDoc) (tid : String) : Option Nat :=
  findFirstIdx (fun t => t.id = tid) d.targets

/-- Replace input `i` of the document via `f`. -/
def updateInput (d : ChkDoc) (i : Nat) (f : ChkInput → ChkInput) : ChkDoc :=
  { d with inputs := modifyIdx f i d.inputs }

/-- Replace target `t` of the document via `f`. -/
def updateTarget (d : ChkDoc) (t : Nat) (f : ChkTarget → ChkTarget) : ChkDoc :=
  { d with targets := modifyIdx f t d.targets }

/-- `DOMTokenList.toggle(token, force)`: `force = true` adds the class (if
absent), `force = false` removes it. -/
def toggleClass (classes : List String) (cls : String) (force : Bool) : List String :=
  if force then
    if classes.contains cls then classes else classes ++ [cls]
  else
    classes.filter (· ≠ cls)

/-- `Checkboxes.prototype.syncConditionalRevealWithInputState`: read the
input's `aria-controls`; if truthy and it names an existing target with
class `govuk-checkboxes__conditional`, set the input's `aria-expanded`
to the string form of its checked state and toggle the target's
`govuk-checkboxes__conditional--hidden` class to the opposite. -/
def syncConditionalReveal (d : ChkDoc) (i : Nat) : ChkDoc :=
  match d.inputs.get? i with
  | none => d
  | some inp =>
    if !(jsTruthy (getAttr inp.attrs "aria-controls")) then d
    else
      match findTargetIdx d ((getAttr inp.attrs "aria-controls").getD "") with
      | none => d
      | some t =>
        match d.targets.get? t with
        | none => d
        | some tgt =>
          if tgt.classes.contains "govuk-checkboxes__conditional" then
            updateTarget
              (updateInput d i (fun x =>
                { x with attrs := setAttr x.attrs "aria-expanded" (toString inp.checked) }))
              t
              (fun x =>
                { x with classes := toggleClass x.classes "govuk-checkboxes__conditional--hidden" (!inp.checked) })
          else d

/-- Shared loop body of both uncheck helpers:
`$el.checked = false; this.syncConditionalRevealWithInputState($el)`. -/
def uncheckAndSync (d : ChkDoc) (j : Nat) : ChkDoc :=
  syncConditionalReveal (updateInput d j (fun x => { x with checked := false })) j

/-- One iteration of the `forEach` in
`Checkboxes.prototype.unCheckAllInputsExcept`: for a same-name checkbox
at index `j`, if it has the same form owner as the clicked input and is
not the clicked input itself, set `checked = false` and sync its
conditional reveal. `clickedForm` is `$input.form` (form ownership never
changes during the loop). -/
def uncheckExceptStep (clickedForm : Option Nat) (clicked : Nat) (d : ChkDoc) (j : Nat) :
    ChkDoc :=
  match d.inputs.get? j with
  | none => d
  | some inp =>
    if inp.form = clickedForm ∧ j ≠ clicked then uncheckAndSync d j
    else d

/-- The static `NodeList` of
`document.querySelectorAll` for checkboxes with the given name: indices
of inputs with `type="checkbox"` and that `name`, in document order. -/
def sameNameIdxs (d : ChkDoc) (nm : String) : List Nat :=
  (List.range d.inputs.length).filter (fun j =>
    match d.inputs.get? j with
    | some inp => inp.typeAttr = "checkbox" ∧ inp.name = nm
    | none => False)

/-- As `sameNameIdxs`, additionally requiring `data-behaviour="exclusive"`
(the selector of `unCheckExclusiveInputs`). -/
def sameNameExclusiveIdxs (d : ChkDoc) (nm : String) : List Nat :=
  (List.range d.inputs.length).filter (fun j =>
    match d.inputs.get? j with
    | some inp =>
        getAttr inp.attrs "data-behaviour" = some "exclusive" ∧
        inp.typeAttr = "checkbox" ∧ inp.name = nm
    | none => False)

/-- `Checkboxes.prototype.unCheckAllInputsExcept` for the clicked input at
index `clicked`. -/
def unCheckAllInputsExcept (d : ChkDoc) (clicked : Nat) : ChkDoc :=
  match d.inputs.get? clicked with
  | none => d
  | some cin =>
    (sameNameIdxs d cin.name).foldl (uncheckExceptStep cin.form clicked) d

/-- One iteration of the `forEach` in
`Checkboxes.prototype.unCheckExclusiveInputs`: unlike
`uncheckExceptStep` there is no "except the clicked input" test. -/
def uncheckExclusiveStep (clickedForm : Option Nat) (d : ChkDoc) (j : Nat) : ChkDoc :=
  match d.inputs.get? j with
  | none => d
  | some inp =>
    if inp.form = clickedForm then uncheckAndSync d j
    else d

/-- `Checkboxes.prototype.unCheckExclusiveInputs` for the clicked input at
index `clicked`. -/
def unCheckExclusiveInputs (d : ChkDoc) (clicked : Nat) : ChkDoc :=
  match d.inputs.get? clicked with
  | none => d
  | some cin =>
    (sameNameExclusiveIdxs d cin.name).foldl (uncheckExclusiveStep cin.form) d

/-- The target of a delegated click event: either something that is not an
input element, or the input at a document index (with `checked` already
reflecting the browser's toggle, since click handlers run after the
default action updates the state). -/
inductive ClickTarget where
  | nonInput
  | input (i : Nat)
  deriving DecidableEq, Repr

/-- The first phase of `Checkboxes.prototype.handleClick`: if the clicked
checkbox has a truthy `aria-controls`, sync its conditional reveal. -/
def handleClickSyncPhase (d : ChkDoc) (i : Nat) (inp : ChkInput) : ChkDoc :=
  if jsTruthy (getAttr inp.attrs "aria-controls") then syncConditionalReveal d i
  else d

/-- `Checkboxes.prototype.handleClick`. -/
def handleClick (d : ChkDoc) (tgt : ClickTarget) : ChkDoc :=
  match tgt with
  | .nonInput => d
  | .input i =>
    match d.inputs.get? i with
    | none => d
    | some inp =>
      if inp.typeAttr ≠ "checkbox" then d
      -- No further behaviour needed for unchecking
      else if !inp.checked then handleClickSyncPhase d i inp
      else if getAttr inp.attrs "data-behaviour" = some "exclusive" then
        unCheckAllInputsExcept (handleClickSyncPhase d i inp) i
      else
        unCheckExclusiveInputs (handleClickSyncPhase d i inp) i

/-- The `$module` argument to the `Checkboxes` constructor: either not an
`HTMLElement` at all, or an element whose descendants include the
inputs at the given document indices (in document order). -/
inductive ChkModuleArg where
  | notElement
  | element (childIdxs : List Nat)
  deriving DecidableEq, Repr

/-- A `Checkboxes` instance: `fields = none` models the early-return
constructor paths that leave both `this.$module` and `this.$inputs`
unset; otherwise `fields` holds the document indices of the selected
checkbox inputs (`$module.querySelectorAll` with
`input[type="checkbox"]`). -/
structure ChkComponent where
  fields : Option (List Nat)
  deriving DecidableEq, Repr

/-- The `Checkboxes` constructor: return without setting fields when the
module is not an `HTMLElement` or contains no checkbox inputs. -/
def Checkboxes.construct (d : ChkDoc) (arg : ChkModuleArg) : ChkComponent :=
  match arg with
  | .notElement => ⟨none⟩
  | .element childIdxs =>
    let sel := childIdxs.filter (fun i =>
      match d.inputs.get? i with
      | some inp => inp.typeAttr = "checkbox"
      | none => False)
    if sel.isEmpty then ⟨none⟩ else ⟨some sel⟩

/-- The promotion step of `Checkboxes.prototype.init` for one input: if its
`data-aria-controls` is truthy and names an existing element, set
`aria-controls` to it and remove `data-aria-controls`; otherwise skip. -/
def promoteAriaControls (d : ChkDoc) (i : Nat) : ChkDoc :=
  match d.inputs.get? i with
  | none => d
  | some inp =>
    if !(jsTruthy (getAttr inp.attrs "data-aria-controls")) then d
    else
      match findTargetIdx d ((getAttr inp.attrs "data-aria-controls").getD "") with
      | none => d
      | some _ =>
        updateInput d i (fun x =>
          { x with attrs := removeAttr (setAttr x.attrs "aria-controls" ((getAttr inp.attrs "data-aria-controls").getD "")) "data-aria-controls" })

/-- `Checkboxes.prototype.syncAllConditionalReveals` over the instance's
input indices. -/
def syncAllConditionalReveals (idxs : List Nat) (d : ChkDoc) : ChkDoc :=
  idxs.foldl syncConditionalReveal d

/-- `Checkboxes.prototype.init`: early return when `$module`/`$inputs` are
unset; otherwise promote `data-aria-controls` on each input, attach the
`pageshow` listener, sync all conditional reveals, attach the `click`
listener. Returns the document plus whether the `pageshow` and `click`
listeners were attached. -/
def Checkboxes.init (c : ChkComponent) (d : ChkDoc) : ChkDoc × Bool × Bool :=
  match c.fields with
  | none => (d, false, false)
  | some idxs =>
    let d1 := idxs.foldl promoteAriaControls d
    -- window.addEventListener('pageshow', ...)
    let d2 := syncAllConditionalReveals idxs d1
    -- $module.addEventListener('click', ...)
    (d2, true, true)

/-! ## Fixture loading (`src/unnamed/part_000`, files.js) -/

/-- A record of a component's `fixtures` array: `{ name, options, html }`
(the fields `getExamples` touches, with `options` kept abstract). -/
structure ComponentFixture (α : Type) where
  name : String
  options : α
  html : String

/-- JavaScript object property assignment `obj[k] = v` on an object modelled
as an insertion-ordered association list: exactly the replace-or-append
semantics of `setAttr`. -/
def objSet (m : List (String × α)) (k : String) (v : α) : List (String × α) :=
  setAttr m k v

/-- `getExamples(componentName)` after the fixtures file is loaded: build an
object with one entry `examples[example.name] = example.options` per
fixture. -/
def getExamples (fixtures : List (ComponentFixture α)) : List (String × α) :=
  fixtures.foldl (fun examples ex => objSet examples ex.name ex.options) []

/-! ## Lemmas: attribute lists -/

theorem getAttr_nil (k : String) : getAttr ([] : List (String × α)) k = none := rfl

theorem getAttr_cons (p : String × α) (attrs : List (String × α)) (k : String) :
    getAttr (p :: attrs) k = if p.1 = k then some p.2 else getAttr attrs k := by
  by_cases h : p.1 = k <;> simp [getAttr, List.find?, h]

theorem getAttr_setAttr_eq (attrs : List (String × α)) (k : String) (v : α) :
    getAttr (setAttr attrs k v) k = some v := by
  unfold setAttr
  split
  · rename_i hany
    induction attrs with
    | nil => simp at hany
    | cons p ps ih =>
      by_cases hp : p.1 = k
      · simp [List.map, getAttr_cons, hp]
      · simp only [List.any_cons, Bool.or_eq_true, decide_eq_true_eq] at hany
        rcases hany with h | h
        · exact absurd h hp
        · simp only [List.map]
          rw [if_neg hp, getAttr_cons, if_neg hp]
          exact ih (by simp [h])
  · rename_i hany
    induction attrs with
    | nil => simp [getAttr_cons]
    | cons p ps ih =>
      simp only [List.any_cons, Bool.or_eq_true, decide_eq_true_eq, not_or] at hany
      rw [List.cons_append, getAttr_cons, if_neg hany.1]
      exact ih (by simpa using hany.2)

theorem getAttr_map_overwrite_ne (attrs : List (String × α)) (k k' : String) (v : α)
    (h : k' ≠ k) :
    getAttr (attrs.map (fun p => if p.1 = k then (k, v) else p)) k' = getAttr attrs k' := by
  induction attrs with
  | nil => rfl
  | cons p ps ih =>
    by_cases hp : p.1 = k
    · simp only [List.map]
      rw [if_pos hp, getAttr_cons, getAttr_cons]
      rw [if_neg (show ¬((k, v).1 = k') from fun hk => h hk.symm)]
      rw [if_neg (show ¬(p.1 = k') from by rw [hp]; exact fun hk => h hk.symm)]
      exact ih
    · simp only [List.map]
      rw [if_neg hp, getAttr_cons, getAttr_cons, ih]

theorem getAttr_append_single_ne (attrs : List (String × α)) (k k' : String) (v : α)
    (h : k' ≠ k) : getAttr (attrs ++ [(k, v)]) k' = getAttr attrs k' := by
  induction attrs with
  | nil =>
    rw [List.nil_append, getAttr_cons, if_neg (show ¬((k, v).1 = k') from fun hk => h hk.symm)]
  | cons p ps ih => rw [List.cons_append, getAttr_cons, getAttr_cons, ih]

theorem getAttr_setAttr_ne (attrs : List (String × α)) (k k' : String) (v : α)
    (h : k' ≠ k) : getAttr (setAttr attrs k v) k' = getAttr attrs k' := by
  unfold setAttr
  split
  · exact getAttr_map_overwrite_ne attrs k k' v h
  · exact getAttr_append_single_ne attrs k k' v h

theorem getAttr_removeAttr_eq (attrs : List (String × String)) (k : String) :
    getAttr (removeAttr attrs k) k = none := by
  induction attrs with
  | nil => rfl
  | cons p ps ih =>
    by_cases hp : p.1 = k
    · simp only [removeAttr, List.filter_cons] at ih ⊢
      rw [if_neg (by simp [hp])]
      exact ih
    · simp only [removeAttr, List.filter_cons] at ih ⊢
      rw [if_pos (by simp [hp]), getAttr_cons, if_neg hp]
      exact ih

theorem getAttr_removeAttr_ne (attrs : List (String × String)) (k k' : String)
    (h : k' ≠ k) : getAttr (removeAttr attrs k) k' = getAttr attrs k' := by
  induction attrs with
  | nil => rfl
  | cons p ps ih =>
    by_cases hp : p.1 = k
    · simp only [removeAttr, List.filter_cons] at ih ⊢
      rw [if_neg (by simp [hp]), ih, getAttr_cons]
      rw [if_neg (show ¬(p.1 = k') from by rw [hp]; exact fun hk => h hk.symm)]
    · simp only [removeAttr, List.filter_cons] at ih ⊢
      rw [if_pos (by simp [hp]), getAttr_cons, getAttr_cons, ih]

/-! ## Lemmas: findFirstIdx and toggleClass -/

theorem findFirstIdx_some (p : α → Bool) (l : List α) (n : Nat)
    (h : findFirstIdx p l = some n) : ∃ a, l.get? n = some a ∧ p a = true := by
  induction l generalizing n with
  | nil => cases h
  | cons a as ih =>
    by_cases hp : p a
    · simp [findFirstIdx, hp] at h
      exact h ▸ ⟨a, rfl, hp⟩
    · simp [findFirstIdx, hp] at h
      rcases h with ⟨m, hm, rfl⟩
      rcases ih m hm with ⟨b, hb, hpb⟩
      exact ⟨b, hb, hpb⟩

theorem findFirstIdx_modifyIdx (p : α → Bool) (f : α → α) (n : Nat) (l : List α)
    (hf : ∀ x, p (f x) = p x) :
    findFirstIdx p (modifyIdx f n l) = findFirstIdx p l := by
  induction l generalizing n with
  | nil => rw [modifyIdx_nil]
  | cons a as ih =>
    cases n with
    | zero => simp [modifyIdx, findFirstIdx, hf]
    | succ n => simp [modifyIdx, findFirstIdx, ih n]

theorem contains_eq_decide_mem (l : List String) (a : String) :
    l.contains a = decide (a ∈ l) := by
  simp [List.contains]

theorem toggleClass_contains_ne (classes : List String) (cls cls' : String) (b : Bool)
    (h : cls' ≠ cls) :
    (toggleClass classes cls b).contains cls' = classes.contains cls' := by
  cases b with
  | true =>
    simp only [toggleClass, if_pos]
    split
    · rfl
    · rw [contains_eq_decide_mem, contains_eq_decide_mem]
      simp only [decide_eq_decide, List.mem_append, List.mem_singleton]
      exact ⟨fun hm => hm.resolve_right h, Or.inl⟩
  | false =>
    simp only [toggleClass, Bool.false_eq_true, if_neg, reduceIte]
    rw [contains_eq_decide_mem, contains_eq_decide_mem]
    simp only [decide_eq_decide]
    constructor
    · intro hm
      exact (List.mem_filter.1 hm).1
    · intro hm
      exact List.mem_filter.2 ⟨hm, by simp [h]⟩

theorem toggleClass_contains_true (classes : List String) (cls : String) :
    (toggleClass classes cls true).contains cls = true := by
  simp only [toggleClass, if_pos]
  split
  · assumption
  · rw [contains_eq_decide_mem]
    simp

/-! ## Observation helpers (proof-side views of a document) -/

/-- The value of attribute `k` on input `i` (`none` outer layer: no such
input). -/
def inputAttr (d : ChkDoc) (i : Nat) (k : String) : Option (Option String) :=
  (d.inputs.get? i).map (fun x => getAttr x.attrs k)

/-- The checked state of input `i`. -/
def inputChecked (d : ChkDoc) (i : Nat) : Option Bool :=
  (d.inputs.get? i).map (·.checked)

/-- Whether target `t` carries class `cls`. -/
def targetHasClass (d : ChkDoc) (t : Nat) (cls : String) : Option Bool :=
  (d.targets.get? t).map (fun x => x.classes.contains cls)

/-! ## Lemmas: updateInput / updateTarget -/

theorem updateInput_get_ne (d : ChkDoc) (i j : Nat) (f : ChkInput → ChkInput)
    (h : j ≠ i) : (updateInput d i f).inputs.get? j = d.inputs.get? j :=
  modifyIdx_get_ne f i j d.inputs h

theorem updateInput_get_eq (d : ChkDoc) (i : Nat) (f : ChkInput → ChkInput) :
    (updateInput d i f).inputs.get? i = (d.inputs.get? i).map f :=
  modifyIdx_get_eq f i d.inputs

theorem updateInput_targets (d : ChkDoc) (i : Nat) (f : ChkInput → ChkInput) :
    (updateInput d i f).targets = d.targets := rfl

theorem updateTarget_inputs (d : ChkDoc) (t : Nat) (f : ChkTarget → ChkTarget) :
    (updateTarget d t f).inputs = d.inputs := rfl

theorem updateTarget_get_ne (d : ChkDoc) (t t' : Nat) (f : ChkTarget → ChkTarget)
    (h : t' ≠ t) : (updateTarget d t f).targets.get? t' = d.targets.get? t' :=
  modifyIdx_get_ne f t t' d.targets h

theorem updateTarget_get_eq (d : ChkDoc) (t : Nat) (f : ChkTarget → ChkTarget) :
    (updateTarget d t f).targets.get? t = (d.targets.get? t).map f :=
  modifyIdx_get_eq f t d.targets

/-! ## Lemmas: syncConditionalReveal -/

theorem sync_inputs_ne (d : ChkDoc) (i j : Nat) (h : j ≠ i) :
    (syncConditionalReveal d i).inputs.get? j = d.inputs.get? j := by
  unfold syncConditionalReveal
  split
  · rfl
  · split
    · rfl
    · split
      · rfl
      · split
        · rfl
        · split
          · rw [show ∀ d' t g, (updateTarget d' t g).inputs = d'.inputs from fun _ _ _ => rfl]
            exact updateInput_get_ne d i j _ h
          · rfl

theorem sync_inputs_obs {β : Type} (obs : ChkInput → β)
    (hobs : ∀ x v, obs { x with attrs := setAttr x.attrs "aria-expanded" v } = obs x)
    (d : ChkDoc) (i j : Nat) :
    ((syncConditionalReveal d i).inputs.get? j).map obs = (d.inputs.get? j).map obs := by
  by_cases hj : j = i
  · subst hj
    unfold syncConditionalReveal
    split
    · rfl
    · split
      · rfl
      · split
        · rfl
        · split
          · rfl
          · split
            · rw [show ∀ d' t g, (updateTarget d' t g).inputs = d'.inputs from fun _ _ _ => rfl]
              rw [updateInput_get_eq]
              cases d.inputs.get? j with
              | none => rfl
              | some x => simp [hobs]
            · rfl
  · rw [sync_inputs_ne d i j hj]

theorem sync_targets_obs {β : Type} (obs : ChkTarget → β)
    (hobs : ∀ x force,
      obs { x with classes := toggleClass x.classes "govuk-checkboxes__conditional--hidden" force } = obs x)
    (d : ChkDoc) (i t : Nat) :
    ((syncConditionalReveal d i).targets.get? t).map obs = (d.targets.get? t).map obs := by
  unfold syncConditionalReveal
  split
  · rfl
  · split
    · rfl
    · split
      · rfl
      · rename_i ti hfind
        split
        · rfl
        · split
          · by_cases ht : t = ti
            · subst ht
              rw [updateTarget_get_eq, updateInput_targets]
              cases d.targets.get? t with
              | none => rfl
              | some x => simp [hobs]
            · rw [updateTarget_get_ne _ _ _ _ ht, updateInput_targets]
          · rfl

theorem sync_targets_frame (d : ChkDoc) (i t : Nat)
    (h : ∀ inp, d.inputs.get? i = some inp →
      findTargetIdx d ((getAttr inp.attrs "aria-controls").getD "") ≠ some t) :
    (syncConditionalReveal d i).targets.get? t = d.targets.get? t := by
  unfold syncConditionalReveal
  split
  · rfl
  · rename_i inp hget
    split
    · rfl
    · split
      · rfl
      · rename_i ti hfind
        split
        · rfl
        · split
          · exact updateTarget_get_ne _ _ _ _ (fun ht => h inp hget (ht ▸ hfind))
          · rfl

theorem toString_false : toString false = "false" := rfl

theorem toString_true : toString true = "true" := rfl

/-- Syncing an unchecked input whose `aria-controls` names an existing
conditional target sets its `aria-expanded` to `"false"`, leaves it
unchecked, and adds the hidden modifier class to the target. -/
theorem sync_reveal_establish (d : ChkDoc) (j : Nat) (inp : ChkInput) (tid : String)
    (ti : Nat)
    (hget : d.inputs.get? j = some inp)
    (hch : inp.checked = false)
    (hac : getAttr inp.attrs "aria-controls" = some tid)
    (htid : tid ≠ "")
    (hfind : findTargetIdx d tid = some ti)
    (hcond : targetHasClass d ti "govuk-checkboxes__conditional" = some true) :
    inputAttr (syncConditionalReveal d j) j "aria-expanded" = some (some "false") ∧
    inputChecked (syncConditionalReveal d j) j = some false ∧
    targetHasClass (syncConditionalReveal d j) ti "govuk-checkboxes__conditional--hidden"
      = some true := by
  have hjt : jsTruthy (some tid) = true := by
    simpa [jsTruthy] using htid
  obtain ⟨tgt, hgt, hcontains⟩ : ∃ tgt, d.targets.get? ti = some tgt ∧
      tgt.classes.contains "govuk-checkboxes__conditional" = true := by
    unfold targetHasClass at hcond
    cases hx : d.targets.get? ti with
    | none => rw [hx] at hcond; cases hcond
    | some tgt => rw [hx] at hcond; exact ⟨tgt, rfl, by simpa using hcond⟩
  have hred : syncConditionalReveal d j =
      updateTarget
        (updateInput d j (fun x =>
          { x with attrs := setAttr x.attrs "aria-expanded" (toString inp.checked) }))
        ti
        (fun x =>
          { x with classes := toggleClass x.classes "govuk-checkboxes__conditional--hidden" (!inp.checked) }) := by
    unfold syncConditionalReveal
    rw [hget]
    simp only [hac, Option.getD_some, hjt, Bool.not_true, Bool.false_eq_true, if_false,
      hfind, hgt, hcontains, if_true]
  refine ⟨?_, ?_, ?_⟩
  · rw [hred]
    unfold inputAttr
    rw [show ∀ d' t g, (updateTarget d' t g).inputs = d'.inputs from fun _ _ _ => rfl]
    rw [updateInput_get_eq, hget]
    simp only [Option.map_some']
    rw [hch, toString_false, getAttr_setAttr_eq]
  · rw [hred]
    unfold inputChecked
    rw [show ∀ d' t g, (updateTarget d' t g).inputs = d'.inputs from fun _ _ _ => rfl]
    rw [updateInput_get_eq, hget]
    simp only [Option.map_some']
    exact congrArg some hch
  · rw [hred]
    unfold targetHasClass
    rw [updateTarget_get_eq, updateInput_targets, hgt]
    simp only [Option.map_some']
    rw [hch]
    simp only [Bool.not_false]
    rw [toggleClass_contains_true]

/-- Syncing an input that is unchecked (or absent) never removes the hidden
modifier class from any target. -/
theorem sync_hidden_mono (d : ChkDoc) (j t : Nat)
    (hch : ∀ inp, d.inputs.get? j = some inp → inp.checked = false)
    (hhid : targetHasClass d t "govuk-checkboxes__conditional--hidden" = some true) :
    targetHasClass (syncConditionalReveal d j) t "govuk-checkboxes__conditional--hidden"
      = some true := by
  unfold syncConditionalReveal
  split
  · exact hhid
  · rename_i inp hget
    split
    · exact hhid
    · split
      · exact hhid
      · rename_i ti hfind
        split
        · exact hhid
        · split
          · by_cases ht : t = ti
            · subst ht
              unfold targetHasClass at hhid ⊢
              rw [updateTarget_get_eq, updateInput_targets]
              cases hx : d.targets.get? t with
              | none => rw [hx] at hhid; cases hhid
              | some tgt =>
                rw [hx] at hhid
                simp only [Option.map_some'] at hhid ⊢
                rw [hch inp hget]
                simp only [Bool.not_false]
                rw [toggleClass_contains_true]
            · unfold targetHasClass at hhid ⊢
              rw [updateTarget_get_ne _ _ _ _ ht, updateInput_targets]
              exact hhid
          · exact hhid

/-! ## Lemmas: uncheckAndSync -/

theorem uncheckAndSync_inputs_ne (d : ChkDoc) (j k : Nat) (h : k ≠ j) :
    (uncheckAndSync d j).inputs.get? k = d.inputs.get? k := by
  unfold uncheckAndSync
  rw [sync_inputs_ne _ _ _ h, updateInput_get_ne _ _ _ _ h]

theorem uncheckAndSync_checked (d : ChkDoc) (j : Nat) (inp : ChkInput)
    (hget : d.inputs.get? j = some inp) :
    inputChecked (uncheckAndSync d j) j = some false := by
  unfold uncheckAndSync inputChecked
  rw [sync_inputs_obs (fun x => x.checked) (fun _ _ => rfl)]
  rw [updateInput_get_eq, hget]
  rfl

theorem uncheckAndSync_targets_obs {β : Type} (obs : ChkTarget → β)
    (hobs : ∀ x force,
      obs { x with classes := toggleClass x.classes "govuk-checkboxes__conditional--hidden" force } = obs x)
    (d : ChkDoc) (j t : Nat) :
    ((uncheckAndSync d j).targets.get? t).map obs = (d.targets.get? t).map obs := by
  unfold uncheckAndSync
  rw [sync_targets_obs obs hobs]
  rfl

theorem uncheckAndSync_hidden_mono (d : ChkDoc) (j t : Nat)
    (hhid : targetHasClass d t "govuk-checkboxes__conditional--hidden" = some true) :
    targetHasClass (uncheckAndSync d j) t "govuk-checkboxes__conditional--hidden"
      = some true := by
  unfold uncheckAndSync
  apply sync_hidden_mono
  · intro inp hget
    rw [updateInput_get_eq] at hget
    cases hx : d.inputs.get? j with
    | none => rw [hx] at hget; cases hget
    | some x =>
      rw [hx] at hget
      simp only [Option.map_some'] at hget
      cases Option.some.inj hget
      rfl
  · exact hhid

theorem sync_findTargetIdx (d : ChkDoc) (i : Nat) (tid : String) :
    findTargetIdx (syncConditionalReveal d i) tid = findTargetIdx d tid := by
  unfold syncConditionalReveal
  split
  · rfl
  · split
    · rfl
    · split
      · rfl
      · split
        · rfl
        · split
          · exact findFirstIdx_modifyIdx _ _ _ _ (fun x => rfl)
          · rfl

theorem uncheckAndSync_findTargetIdx (d : ChkDoc) (j : Nat) (tid : String) :
    findTargetIdx (uncheckAndSync d j) tid = findTargetIdx d tid :=
  sync_findTargetIdx (updateInput d j (fun x => { x with checked := false })) j tid

theorem uncheckAndSync_establish (d : ChkDoc) (j : Nat) (inp : ChkInput) (tid : String)
    (ti : Nat)
    (hget : d.inputs.get? j = some inp)
    (hac : getAttr inp.attrs "aria-controls" = some tid) (htid : tid ≠ "")
    (hfind : findTargetIdx d tid = some ti)
    (hcond : targetHasClass d ti "govuk-checkboxes__conditional" = some true) :
    inputAttr (uncheckAndSync d j) j "aria-expanded" = some (some "false") ∧
    targetHasClass (uncheckAndSync d j) ti "govuk-checkboxes__conditional--hidden"
      = some true := by
  have h := sync_reveal_establish
    (updateInput d j (fun x => { x with checked := false })) j
    { inp with checked := false } tid ti
    (by rw [updateInput_get_eq, hget]; rfl)
    rfl hac htid hfind hcond
  exact ⟨h.1, h.2.2⟩

/-! ## Lemmas: the two uncheck loop steps -/

theorem exceptStep_inputs_ne (cf : Option Nat) (clicked : Nat) (d : ChkDoc) (j k : Nat)
    (h : k ≠ j) :
    (uncheckExceptStep cf clicked d j).inputs.get? k = d.inputs.get? k := by
  unfold uncheckExceptStep
  split
  · rfl
  · split
    · exact uncheckAndSync_inputs_ne d j k h
    · rfl

theorem exclusiveStep_inputs_ne (cf : Option Nat) (d : ChkDoc) (j k : Nat) (h : k ≠ j) :
    (uncheckExclusiveStep cf d j).inputs.get? k = d.inputs.get? k := by
  unfold uncheckExclusiveStep
  split
  · rfl
  · split
    · exact uncheckAndSync_inputs_ne d j k h
    · rfl

theorem exclusiveStep_findTargetIdx (cf : Option Nat) (d : ChkDoc) (j : Nat) (tid : String) :
    findTargetIdx (uncheckExclusiveStep cf d j) tid = findTargetIdx d tid := by
  unfold uncheckExclusiveStep
  split
  · rfl
  · split
    · exact uncheckAndSync_findTargetIdx d j tid
    · rfl

theorem exclusiveStep_cond_obs (cf : Option Nat) (d : ChkDoc) (j t : Nat) :
    targetHasClass (uncheckExclusiveStep cf d j) t "govuk-checkboxes__conditional"
      = targetHasClass d t "govuk-checkboxes__conditional" := by
  unfold uncheckExclusiveStep
  split
  · rfl
  · split
    · exact uncheckAndSync_targets_obs
        (fun x => x.classes.contains "govuk-checkboxes__conditional")
        (fun x force => toggleClass_contains_ne _ _ _ _ (by decide)) d j t
    · rfl

theorem exclusiveStep_hidden_mono (cf : Option Nat) (d : ChkDoc) (j t : Nat)
    (hhid : targetHasClass d t "govuk-checkboxes__conditional--hidden" = some true) :
    targetHasClass (uncheckExclusiveStep cf d j) t "govuk-checkboxes__conditional--hidden"
      = some true := by
  unfold uncheckExclusiveStep
  split
  · exact hhid
  · split
    · exact uncheckAndSync_hidden_mono d j t hhid
    · exact hhid

/-! ## Lemmas: folds over index lists -/

theorem foldl_inputs_frame (st : ChkDoc → Nat → ChkDoc)
    (hst : ∀ d j k, k ≠ j → (st d j).inputs.get? k = d.inputs.get? k)
    (L : List Nat) (d : ChkDoc) (k : Nat) (hk : k ∉ L) :
    (L.foldl st d).inputs.get? k = d.inputs.get? k := by
  induction L generalizing d with
  | nil => rfl
  | cons a as ih =>
    simp only [List.foldl_cons]
    rw [ih (st d a) (fun h => hk (List.mem_cons_of_mem a h)),
      hst d a k (fun h => hk (h ▸ List.mem_cons_self a as))]

theorem foldl_pred_preserved (st : ChkDoc → Nat → ChkDoc) (P : ChkDoc → Prop)
    (hst : ∀ d j, P d → P (st d j)) (L : List Nat) (d : ChkDoc) (h : P d) :
    P (L.foldl st d) := by
  induction L generalizing d with
  | nil => exact h
  | cons a as ih => exact ih (st d a) (hst d a h)

/-! ## Lemmas: the querySelectorAll index lists -/

theorem mem_sameNameIdxs (d : ChkDoc) (nm : String) (j : Nat) :
    j ∈ sameNameIdxs d nm ↔
      ∃ inp, d.inputs.get? j = some inp ∧ inp.typeAttr = "checkbox" ∧ inp.name = nm := by
  unfold sameNameIdxs
  rw [List.mem_filter, List.mem_range]
  constructor
  · rintro ⟨hlt, hp⟩
    cases hget : d.inputs.get? j with
    | none => rw [hget] at hp; simp at hp
    | some inp =>
      rw [hget] at hp
      simp only [decide_eq_true_eq] at hp
      exact ⟨inp, rfl, hp⟩
  · rintro ⟨inp, hget, h1, h2⟩
    refine ⟨?_, ?_⟩
    · by_contra hge
      rw [List.get?_eq_none.2 (Nat.le_of_not_lt hge)] at hget
      cases hget
    · rw [hget]
      simp [h1, h2]

theorem mem_sameNameExclusiveIdxs (d : ChkDoc) (nm : String) (j : Nat) :
    j ∈ sameNameExclusiveIdxs d nm ↔
      ∃ inp, d.inputs.get? j = some inp ∧
        getAttr inp.attrs "data-behaviour" = some "exclusive" ∧
        inp.typeAttr = "checkbox" ∧ inp.name = nm := by
  unfold sameNameExclusiveIdxs
  rw [List.mem_filter, List.mem_range]
  constructor
  · rintro ⟨hlt, hp⟩
    cases hget : d.inputs.get? j with
    | none => rw [hget] at hp; simp at hp
    | some inp =>
      rw [hget] at hp
      simp only [decide_eq_true_eq] at hp
      exact ⟨inp, rfl, hp⟩
  · rintro ⟨inp, hget, h1, h2, h3⟩
    refine ⟨?_, ?_⟩
    · by_contra hge
      rw [List.get?_eq_none.2 (Nat.le_of_not_lt hge)] at hget
      cases hget
    · rw [hget]
      simp [h1, h2, h3]

theorem nodup_sameNameIdxs (d : ChkDoc) (nm : String) : (sameNameIdxs d nm).Nodup :=
  (List.nodup_range _).filter _

theorem nodup_sameNameExclusiveIdxs (d : ChkDoc) (nm : String) :
    (sameNameExclusiveIdxs d nm).Nodup :=
  (List.nodup_range _).filter _

/-! ## Fold specifications for the uncheck loops -/

theorem exceptStep_at (cf : Option Nat) (clicked : Nat) (d : ChkDoc) (j : Nat)
    (inp : ChkInput) (hget : d.inputs.get? j = some inp)
    (hform : inp.form = cf) (hne : j ≠ clicked) :
    uncheckExceptStep cf clicked d j = uncheckAndSync d j := by
  unfold uncheckExceptStep
  rw [hget]
  exact if_pos ⟨hform, hne⟩

theorem exclusiveStep_at (cf : Option Nat) (d : ChkDoc) (j : Nat)
    (inp : ChkInput) (hget : d.inputs.get? j = some inp) (hform : inp.form = cf) :
    uncheckExclusiveStep cf d j = uncheckAndSync d j := by
  unfold uncheckExclusiveStep
  rw [hget]
  exact if_pos hform

theorem foldl_except_unchecks (cf : Option Nat) (clicked : Nat) (L : List Nat)
    (d : ChkDoc) (j : Nat) (inp : ChkInput)
    (hN : L.Nodup) (hj : j ∈ L)
    (hget : d.inputs.get? j = some inp) (hform : inp.form = cf) (hne : j ≠ clicked) :
    inputChecked (L.foldl (uncheckExceptStep cf clicked) d) j = some false := by
  induction L generalizing d with
  | nil => cases hj
  | cons a as ih =>
    simp only [List.foldl_cons]
    rcases List.mem_cons.1 hj with rfl | hj'
    · have hnotin : j ∉ as := (List.nodup_cons.1 hN).1
      unfold inputChecked
      rw [foldl_inputs_frame _ (exceptStep_inputs_ne cf clicked) as _ j hnotin]
      rw [exceptStep_at cf clicked d j inp hget hform hne]
      exact uncheckAndSync_checked d j inp hget
    · have hne_a : j ≠ a := fun h => (List.nodup_cons.1 hN).1 (h ▸ hj')
      have hget' : (uncheckExceptStep cf clicked d a).inputs.get? j = some inp := by
        rw [exceptStep_inputs_ne cf clicked d a j hne_a]
        exact hget
      exact ih (uncheckExceptStep cf clicked d a) (List.nodup_cons.1 hN).2 hj' hget'

theorem foldl_exclusive_unchecks (cf : Option Nat) (L : List Nat)
    (d : ChkDoc) (j : Nat) (inp : ChkInput)
    (hN : L.Nodup) (hj : j ∈ L)
    (hget : d.inputs.get? j = some inp) (hform : inp.form = cf) :
    inputChecked (L.foldl (uncheckExclusiveStep cf) d) j = some false := by
  induction L generalizing d with
  | nil => cases hj
  | cons a as ih =>
    simp only [List.foldl_cons]
    rcases List.mem_cons.1 hj with rfl | hj'
    · have hnotin : j ∉ as := (List.nodup_cons.1 hN).1
      unfold inputChecked
      rw [foldl_inputs_frame _ (exclusiveStep_inputs_ne cf) as _ j hnotin]
      rw [exclusiveStep_at cf d j inp hget hform]
      exact uncheckAndSync_checked d j inp hget
    · have hne_a : j ≠ a := fun h => (List.nodup_cons.1 hN).1 (h ▸ hj')
      have hget' : (uncheckExclusiveStep cf d a).inputs.get? j = some inp := by
        rw [exclusiveStep_inputs_ne cf d a j hne_a]
        exact hget
      exact ih (uncheckExclusiveStep cf d a) (List.nodup_cons.1 hN).2 hj' hget'

theorem foldl_exclusive_reveal (cf : Option Nat) (L : List Nat)
    (d : ChkDoc) (j : Nat) (inp : ChkInput) (tid : String) (ti : Nat)
    (hN : L.Nodup) (hj : j ∈ L)
    (hget : d.inputs.get? j = some inp) (hform : inp.form = cf)
    (hac : getAttr inp.attrs "aria-controls" = some tid) (htid : tid ≠ "")
    (hfind : findTargetIdx d tid = some ti)
    (hcond : targetHasClass d ti "govuk-checkboxes__conditional" = some true) :
    inputAttr (L.foldl (uncheckExclusiveStep cf) d) j "aria-expanded"
      = some (some "false") ∧
    targetHasClass (L.foldl (uncheckExclusiveStep cf) d) ti
      "govuk-checkboxes__conditional--hidden" = some true := by
  induction L generalizing d with
  | nil => cases hj
  | cons a as ih =>
    simp only [List.foldl_cons]
    rcases List.mem_cons.1 hj with rfl | hj'
    · have hnotin : j ∉ as := (List.nodup_cons.1 hN).1
      have hstep := uncheckAndSync_establish d j inp tid ti hget hac htid hfind hcond
      rw [← exclusiveStep_at cf d j inp hget hform] at hstep
      constructor
      · unfold inputAttr
        rw [foldl_inputs_frame _ (exclusiveStep_inputs_ne cf) as _ j hnotin]
        exact hstep.1
      · exact foldl_pred_preserved _
          (fun d' => targetHasClass d' ti "govuk-checkboxes__conditional--hidden" = some true)
          (fun d' j' h => exclusiveStep_hidden_mono cf d' j' ti h) as _ hstep.2
    · have hne_a : j ≠ a := fun h => (List.nodup_cons.1 hN).1 (h ▸ hj')
      have hget' : (uncheckExclusiveStep cf d a).inputs.get? j = some inp := by
        rw [exclusiveStep_inputs_ne cf d a j hne_a]
        exact hget
      have hfind' : findTargetIdx (uncheckExclusiveStep cf d a) tid = some ti := by
        rw [exclusiveStep_findTargetIdx]
        exact hfind
      have hcond' : targetHasClass (uncheckExclusiveStep cf d a) ti
          "govuk-checkboxes__conditional" = some true := by
        rw [exclusiveStep_cond_obs]
        exact hcond
      exact ih (uncheckExclusiveStep cf d a) (List.nodup_cons.1 hN).2 hj' hget' hfind' hcond'

/-! ## Lemmas: handleClickSyncPhase -/

theorem syncPhase_inputs_ne (d : ChkDoc) (i : Nat) (inp : ChkInput) (k : Nat)
    (h : k ≠ i) :
    (handleClickSyncPhase d i inp).inputs.get? k = d.inputs.get? k := by
  unfold handleClickSyncPhase
  split
  · exact sync_inputs_ne d i k h
  · rfl

theorem syncPhase_inputs_obs {β : Type} (obs : ChkInput → β)
    (hobs : ∀ x v, obs { x with attrs := setAttr x.attrs "aria-expanded" v } = obs x)
    (d : ChkDoc) (i : Nat) (inp : ChkInput) (k : Nat) :
    ((handleClickSyncPhase d i inp).inputs.get? k).map obs = (d.inputs.get? k).map obs := by
  unfold handleClickSyncPhase
  split
  · exact sync_inputs_obs obs hobs d i k
  · rfl

theorem syncPhase_findTargetIdx (d : ChkDoc) (i : Nat) (inp : ChkInput) (tid : String) :
    findTargetIdx (handleClickSyncPhase d i inp) tid = findTargetIdx d tid := by
  unfold handleClickSyncPhase
  split
  · exact sync_findTargetIdx d i tid
  · rfl

theorem syncPhase_targets_obs {β : Type} (obs : ChkTarget → β)
    (hobs : ∀ x force,
      obs { x with classes := toggleClass x.classes "govuk-checkboxes__conditional--hidden" force } = obs x)
    (d : ChkDoc) (i : Nat) (inp : ChkInput) (t : Nat) :
    ((handleClickSyncPhase d i inp).targets.get? t).map obs = (d.targets.get? t).map obs := by
  unfold handleClickSyncPhase
  split
  · exact sync_targets_obs obs hobs d i t
  · rfl

/-- The tuple of input fields the click-time loops read (everything except
the `aria-expanded` attribute), preserved by every reveal sync. -/
def clickObs (x : ChkInput) : String × Option Nat × Bool × String × Option String × Option String :=
  (x.name, x.form, x.checked, x.typeAttr, getAttr x.attrs "data-behaviour",
    getAttr x.attrs "aria-controls")

theorem clickObs_setAttr (x : ChkInput) (v : String) :
    clickObs { x with attrs := setAttr x.attrs "aria-expanded" v } = clickObs x := by
  unfold clickObs
  simp only [getAttr_setAttr_ne _ _ _ _ (show "data-behaviour" ≠ "aria-expanded" by decide),
    getAttr_setAttr_ne _ _ _ _ (show "aria-controls" ≠ "aria-expanded" by decide)]

theorem syncPhase_get_self (d : ChkDoc) (i : Nat) (inp : ChkInput)
    (hget : d.inputs.get? i = some inp) :
    ∃ inp1, (handleClickSyncPhase d i inp).inputs.get? i = some inp1 ∧
      clickObs inp1 = clickObs inp := by
  have h := syncPhase_inputs_obs clickObs clickObs_setAttr d i inp i
  rw [hget] at h
  simp only [Option.map_some'] at h
  rcases Option.map_eq_some'.1 h with ⟨inp1, hinp1, hobs⟩
  exact ⟨inp1, hinp1, hobs⟩

/-! ## Lemmas: the two document-wide uncheck helpers -/

theorem unCheckAllInputsExcept_unchecks (d : ChkDoc) (i j : Nat) (cin jnp : ChkInput)
    (hgi : d.inputs.get? i = some cin) (hgj : d.inputs.get? j = some jnp)
    (hne : j ≠ i) (htype : jnp.typeAttr = "checkbox")
    (hname : jnp.name = cin.name) (hform : jnp.form = cin.form) :
    inputChecked (unCheckAllInputsExcept d i) j = some false := by
  unfold unCheckAllInputsExcept
  rw [hgi]
  exact foldl_except_unchecks cin.form i (sameNameIdxs d cin.name) d j jnp
    (nodup_sameNameIdxs d cin.name)
    ((mem_sameNameIdxs d cin.name j).2 ⟨jnp, hgj, htype, hname⟩) hgj hform hne

theorem unCheckExclusiveInputs_unchecks (d : ChkDoc) (i j : Nat) (cin jnp : ChkInput)
    (hgi : d.inputs.get? i = some cin) (hgj : d.inputs.get? j = some jnp)
    (hexcl : getAttr jnp.attrs "data-behaviour" = some "exclusive")
    (htype : jnp.typeAttr = "checkbox")
    (hname : jnp.name = cin.name) (hform : jnp.form = cin.form) :
    inputChecked (unCheckExclusiveInputs d i) j = some false := by
  unfold unCheckExclusiveInputs
  rw [hgi]
  exact foldl_exclusive_unchecks cin.form (sameNameExclusiveIdxs d cin.name) d j jnp
    (nodup_sameNameExclusiveIdxs d cin.name)
    ((mem_sameNameExclusiveIdxs d cin.name j).2 ⟨jnp, hgj, hexcl, htype, hname⟩) hgj hform

theorem unCheckExclusiveInputs_reveal (d : ChkDoc) (i j : Nat) (cin jnp : ChkInput)
    (tid : String) (ti : Nat)
    (hgi : d.inputs.get? i = some cin) (hgj : d.inputs.get? j = some jnp)
    (hexcl : getAttr jnp.attrs "data-behaviour" = some "exclusive")
    (htype : jnp.typeAttr = "checkbox")
    (hname : jnp.name = cin.name) (hform : jnp.form = cin.form)
    (hac : getAttr jnp.attrs "aria-controls" = some tid) (htid : tid ≠ "")
    (hfind : findTargetIdx d tid = some ti)
    (hcond : targetHasClass d ti "govuk-checkboxes__conditional" = some true) :
    inputAttr (unCheckExclusiveInputs d i) j "aria-expanded" = some (some "false") ∧
    targetHasClass (unCheckExclusiveInputs d i) ti "govuk-checkboxes__conditional--hidden"
      = some true := by
  unfold unCheckExclusiveInputs
  rw [hgi]
  exact foldl_exclusive_reveal cin.form (sameNameExclusiveIdxs d cin.name) d j jnp tid ti
    (nodup_sameNameExclusiveIdxs d cin.name)
    ((mem_sameNameExclusiveIdxs d cin.name j).2 ⟨jnp, hgj, hexcl, htype, hname⟩)
    hgj hform hac htid hfind hcond

/-! ## Lemmas: reducing handleClick in each click scenario -/

theorem handleClick_unchecked_eq (d : ChkDoc) (i : Nat) (inp : ChkInput)
    (hget : d.inputs.get? i = some inp) (htype : inp.typeAttr = "checkbox")
    (hch : inp.checked = false) :
    handleClick d (.input i) = handleClickSyncPhase d i inp := by
  unfold handleClick
  simp only [hget, hch, htype, ne_eq, not_true_eq_false, Bool.not_false, if_false, if_true,
    reduceIte]

theorem handleClick_exclusive_eq (d : ChkDoc) (i : Nat) (inp : ChkInput)
    (hget : d.inputs.get? i = some inp) (htype : inp.typeAttr = "checkbox")
    (hch : inp.checked = true)
    (hexcl : getAttr inp.attrs "data-behaviour" = some "exclusive") :
    handleClick d (.input i) = unCheckAllInputsExcept (handleClickSyncPhase d i inp) i := by
  unfold handleClick
  simp only [hget, hch, htype, hexcl, ne_eq, not_true_eq_false, Bool.not_true,
    Bool.false_eq_true, if_false, if_true, reduceIte]

theorem handleClick_nonexclusive_eq (d : ChkDoc) (i : Nat) (inp : ChkInput)
    (hget : d.inputs.get? i = some inp) (htype : inp.typeAttr = "checkbox")
    (hch : inp.checked = true)
    (hexcl : getAttr inp.attrs "data-behaviour" ≠ some "exclusive") :
    handleClick d (.input i) = unCheckExclusiveInputs (handleClickSyncPhase d i inp) i := by
  unfold handleClick
  simp only [hget, hch, htype, ne_eq, not_true_eq_false, Bool.not_true,
    Bool.false_eq_true, if_false, if_true, reduceIte, if_neg hexcl]

/-! ## Lemmas: promoteAriaControls and init -/

theorem promote_targets (d : ChkDoc) (i : Nat) :
    (promoteAriaControls d i).targets = d.targets := by
  unfold promoteAriaControls
  split
  · rfl
  · split
    · rfl
    · split
      · rfl
      · rfl

theorem promote_inputs_ne (d : ChkDoc) (j i : Nat) (h : i ≠ j) :
    (promoteAriaControls d j).inputs.get? i = d.inputs.get? i := by
  unfold promoteAriaControls
  split
  · rfl
  · split
    · rfl
    · split
      · rfl
      · exact updateInput_get_ne d j i _ h

theorem promote_establish (d : ChkDoc) (i : Nat) (inp : ChkInput) (tid : String)
    (hget : d.inputs.get? i = some inp)
    (hdac : getAttr inp.attrs "data-aria-controls" = some tid) (htid : tid ≠ "")
    (hfind : (findTargetIdx d tid).isSome) :
    inputAttr (promoteAriaControls d i) i "aria-controls" = some (some tid) ∧
    inputAttr (promoteAriaControls d i) i "data-aria-controls" = some none := by
  have hjt : jsTruthy (some tid) = true := by
    simpa [jsTruthy] using htid
  obtain ⟨ti, hti⟩ := Option.isSome_iff_exists.1 hfind
  have hred : promoteAriaControls d i = updateInput d i (fun x =>
      { x with attrs := removeAttr (setAttr x.attrs "aria-controls" tid) "data-aria-controls" }) := by
    unfold promoteAriaControls
    rw [hget]
    simp only [hdac, Option.getD_some, hjt, Bool.not_true, Bool.false_eq_true, if_false, hti]
  rw [hred]
  unfold inputAttr
  rw [updateInput_get_eq, hget]
  simp only [Option.map_some']
  constructor
  · rw [getAttr_removeAttr_ne _ _ _ (by decide), getAttr_setAttr_eq]
  · rw [getAttr_removeAttr_eq]

theorem promote_preserves_promoted (d : ChkDoc) (i j : Nat) (tid : String)
    (h1 : inputAttr d i "aria-controls" = some (some tid))
    (h2 : inputAttr d i "data-aria-controls" = some none) :
    inputAttr (promoteAriaControls d j) i "aria-controls" = some (some tid) ∧
    inputAttr (promoteAriaControls d j) i "data-aria-controls" = some none := by
  by_cases hj : j = i
  · subst hj
    obtain ⟨inp, hget, hattr⟩ : ∃ inp, d.inputs.get? j = some inp ∧
        getAttr inp.attrs "data-aria-controls" = none := by
      unfold inputAttr at h2
      cases hx : d.inputs.get? j with
      | none => rw [hx] at h2; cases h2
      | some inp =>
        rw [hx] at h2
        simp only [Option.map_some'] at h2
        exact ⟨inp, rfl, Option.some.inj h2⟩
    have hred : promoteAriaControls d j = d := by
      unfold promoteAriaControls
      rw [hget]
      simp only [hattr, jsTruthy, Bool.not_false, if_true, reduceIte]
    rw [hred]
    exact ⟨h1, h2⟩
  · unfold inputAttr at h1 h2 ⊢
    rw [promote_inputs_ne d j i (fun h => hj h.symm)]
    exact ⟨h1, h2⟩

theorem promote_preserves_skipped (d : ChkDoc) (i j : Nat) (o1 o2 : Option String)
    (h1 : inputAttr d i "data-aria-controls" = some o1)
    (h2 : inputAttr d i "aria-controls" = some o2)
    (hskip : jsTruthy o1 = false ∨ findTargetIdx d (o1.getD "") = none) :
    inputAttr (promoteAriaControls d j) i "data-aria-controls" = some o1 ∧
    inputAttr (promoteAriaControls d j) i "aria-controls" = some o2 := by
  by_cases hj : j = i
  · subst hj
    obtain ⟨inp, hget, hattr⟩ : ∃ inp, d.inputs.get? j = some inp ∧
        getAttr inp.attrs "data-aria-controls" = o1 := by
      unfold inputAttr at h1
      cases hx : d.inputs.get? j with
      | none => rw [hx] at h1; cases h1
      | some inp =>
        rw [hx] at h1
        simp only [Option.map_some'] at h1
        exact ⟨inp, rfl, Option.some.inj h1⟩
    have hred : promoteAriaControls d j = d := by
      unfold promoteAriaControls
      rw [hget]
      simp only [hattr]
      rcases hskip with h | h
      · rw [h]
        rfl
      · by_cases ht : jsTruthy o1 = true
        · simp only [ht, Bool.not_true, Bool.false_eq_true, if_false, reduceIte, h]
        · rw [Bool.eq_false_iff.2 ht]
          rfl
    rw [hred]
    exact ⟨h1, h2⟩
  · unfold inputAttr at h1 h2 ⊢
    rw [promote_inputs_ne d j i (fun h => hj h.symm)]
    exact ⟨h1, h2⟩

theorem promote_fold_unchanged (L : List Nat) (d : ChkDoc) (i : Nat) (o1 o2 : Option String)
    (h1 : inputAttr d i "data-aria-controls" = some o1)
    (h2 : inputAttr d i "aria-controls" = some o2)
    (hskip : jsTruthy o1 = false ∨ findTargetIdx d (o1.getD "") = none) :
    inputAttr (L.foldl promoteAriaControls d) i "data-aria-controls" = some o1 ∧
    inputAttr (L.foldl promoteAriaControls d) i "aria-controls" = some o2 := by
  induction L generalizing d with
  | nil => exact ⟨h1, h2⟩
  | cons a as ih =>
    simp only [List.foldl_cons]
    have hstep := promote_preserves_skipped d i a o1 o2 h1 h2 hskip
    refine ih (promoteAriaControls d a) hstep.1 hstep.2 ?_
    rcases hskip with h | h
    · exact Or.inl h
    · refine Or.inr ?_
      unfold findTargetIdx at h ⊢
      rw [promote_targets]
      exact h

theorem promote_fold_promoted (L : List Nat) (d : ChkDoc) (i : Nat) (inp : ChkInput)
    (tid : String)
    (hj : i ∈ L)
    (hget : d.inputs.get? i = some inp)
    (hdac : getAttr inp.attrs "data-aria-controls" = some tid) (htid : tid ≠ "")
    (hfind : (findTargetIdx d tid).isSome) :
    inputAttr (L.foldl promoteAriaControls d) i "aria-controls" = some (some tid) ∧
    inputAttr (L.foldl promoteAriaControls d) i "data-aria-controls" = some none := by
  induction L generalizing d with
  | nil => cases hj
  | cons a as ih =>
    simp only [List.foldl_cons]
    by_cases ha : a = i
    · subst ha
      have hstep := promote_establish d a inp tid hget hdac htid hfind
      exact foldl_pred_preserved promoteAriaControls
        (fun d' => inputAttr d' a "aria-controls" = some (some tid) ∧
          inputAttr d' a "data-aria-controls" = some none)
        (fun d' j h => promote_preserves_promoted d' a j tid h.1 h.2) as _ hstep
    · rcases List.mem_cons.1 hj with h | hj'
      · exact absurd h.symm ha
      · have hget' : (promoteAriaControls d a).inputs.get? i = some inp := by
          rw [promote_inputs_ne d a i (fun h => ha h.symm)]
          exact hget
        have hfind' : (findTargetIdx (promoteAriaControls d a) tid).isSome := by
          unfold findTargetIdx
          rw [promote_targets]
          exact hfind
        exact ih (promoteAriaControls d a) hj' hget' hfind'

theorem sync_inputAttr_ne (d : ChkDoc) (j i : Nat) (k : String)
    (hk : k ≠ "aria-expanded") :
    inputAttr (syncConditionalReveal d j) i k = inputAttr d i k :=
  sync_inputs_obs (fun x => getAttr x.attrs k)
    (fun x v => getAttr_setAttr_ne x.attrs "aria-expanded" k v hk) d j i

theorem syncAll_inputAttr_ne (idxs : List Nat) (d : ChkDoc) (i : Nat) (k : String)
    (hk : k ≠ "aria-expanded") :
    inputAttr (syncAllConditionalReveals idxs d) i k = inputAttr d i k := by
  unfold syncAllConditionalReveals
  induction idxs generalizing d with
  | nil => rfl
  | cons a as ih =>
    simp only [List.foldl_cons]
    rw [ih (syncConditionalReveal d a), sync_inputAttr_ne d a i k hk]

/-- `Checkboxes.prototype.init` with fields set: the document part of the
result is the sync-all fold applied after the promotion fold. -/
theorem init_doc_eq (idxs : List Nat) (d : ChkDoc) :
    Checkboxes.init ⟨some idxs⟩ d =
      (syncAllConditionalReveals idxs (idxs.foldl promoteAriaControls d), true, true) := rfl

/-! ## Lemmas: getExamples -/

theorem any_key_iff (m : List (String × α)) (k : String) :
    (m.any (fun p => p.1 = k)) = true ↔ k ∈ m.map Prod.fst := by
  simp only [List.any_eq_true, List.mem_map, decide_eq_true_eq]

theorem keys_map_overwrite (m : List (String × α)) (k : String) (v : α) :
    (m.map (fun p => if p.1 = k then (k, v) else p)).map Prod.fst = m.map Prod.fst := by
  induction m with
  | nil => rfl
  | cons p ps ih =>
    by_cases hp : p.1 = k
    · simp only [List.map_cons, if_pos hp, ih]
      rw [hp]
    · simp only [List.map_cons, if_neg hp, ih]

theorem keys_setAttr (m : List (String × α)) (k : String) (v : α) :
    (setAttr m k v).map Prod.fst =
      if k ∈ m.map Prod.fst then m.map Prod.fst else m.map Prod.fst ++ [k] := by
  unfold setAttr
  by_cases hany : (m.any fun p => p.1 = k) = true
  · rw [if_pos hany, if_pos ((any_key_iff m k).1 hany)]
    exact keys_map_overwrite m k v
  · rw [if_neg hany, if_neg (fun hm => hany ((any_key_iff m k).2 hm))]
    simp

theorem nodup_keys_setAttr (m : List (String × α)) (k : String) (v : α)
    (h : (m.map Prod.fst).Nodup) : ((setAttr m k v).map Prod.fst).Nodup := by
  rw [keys_setAttr]
  split
  · exact h
  · rename_i hk
    exact List.Nodup.append h (List.nodup_singleton k)
      (fun a ha hb => hk ((List.mem_singleton.1 hb) ▸ ha))

/-- Specification-side reading of the `getExamples` contract: the examples
object maps a name to the options of the LAST fixture carrying that name
(and to nothing when no fixture does). -/
def exampleOptionsSpec (fixtures : List (ComponentFixture α)) (k : String) : Option α :=
  (fixtures.reverse.find? (fun f => f.name = k)).map (fun f => f.options)

theorem exampleOptionsSpec_cons (x : ComponentFixture α) (xs : List (ComponentFixture α))
    (k : String) :
    exampleOptionsSpec (x :: xs) k =
      (exampleOptionsSpec xs k).or (if x.name = k then some x.options else none) := by
  unfold exampleOptionsSpec
  rw [List.reverse_cons, List.find?_append]
  cases hxs : xs.reverse.find? (fun f => f.name = k) with
  | some f => rfl
  | none =>
    simp only [Option.none_or]
    by_cases hx : x.name = k
    · rw [List.find?_cons_of_pos _ (by simp [hx]), if_pos hx]
      rfl
    · rw [List.find?_cons_of_neg _ (by simp [hx]), if_neg hx]
      rfl

theorem getExamples_go (fxs : List (ComponentFixture α)) (m : List (String × α))
    (k : String) :
    getAttr (fxs.foldl (fun ex f => objSet ex f.name f.options) m) k =
      (exampleOptionsSpec fxs k).or (getAttr m k) := by
  induction fxs generalizing m with
  | nil =>
    simp only [List.foldl_nil, exampleOptionsSpec, List.reverse_nil, List.find?_nil,
      Option.map_none', Option.none_or]
  | cons x xs ih =>
    simp only [List.foldl_cons]
    rw [ih, exampleOptionsSpec_cons, Option.or_assoc]
    have hobj : getAttr (objSet m x.name x.options) k =
        (if x.name = k then some x.options else none).or (getAttr m k) := by
      by_cases hx : x.name = k
      · rw [if_pos hx]
        subst hx
        rw [show objSet m x.name x.options = setAttr m x.name x.options from rfl,
          getAttr_setAttr_eq]
        rfl
      · rw [if_neg hx, Option.none_or,
          show objSet m x.name x.options = setAttr m x.name x.options from rfl,
          getAttr_setAttr_ne m x.name k x.options (fun h => hx h.symm)]
    rw [hobj]

theorem keys_getExamples_mem (fxs : List (ComponentFixture α)) (m : List (String × α))
    (k : String) :
    (k ∈ ((fxs.foldl (fun ex f => objSet ex f.name f.options) m).map Prod.fst)) ↔
      k ∈ fxs.map (fun f => f.name) ∨ k ∈ m.map Prod.fst := by
  induction fxs generalizing m with
  | nil => simp
  | cons x xs ih =>
    simp only [List.foldl_cons, List.map_cons, List.mem_cons]
    rw [ih]
    have hobj : k ∈ ((objSet m x.name x.options).map Prod.fst) ↔
        k = x.name ∨ k ∈ m.map Prod.fst := by
      rw [show objSet m x.name x.options = setAttr m x.name x.options from rfl, keys_setAttr]
      split
      · rename_i hmem
        constructor
        · exact Or.inr
        · rintro (rfl | h)
          · exact hmem
          · exact h
      · simp only [List.mem_append, List.mem_singleton]
        exact or_comm
    rw [hobj]
    tauto

theorem nodup_keys_getExamples_go (fxs : List (ComponentFixture α)) (m : List (String × α))
    (h : (m.map Prod.fst).Nodup) :
    (((fxs.foldl (fun ex f => objSet ex f.name f.options) m)).map Prod.fst).Nodup := by
  induction fxs generalizing m with
  | nil => exact h
  | cons x xs ih => exact ih (objSet m x.name x.options) (nodup_keys_setAttr m x.name x.options h)

/-- The constructor path for a non-element module leaves the fields unset. -/
theorem construct_notElement_fields (cd : ChkDoc) :
    (Checkboxes.construct cd .notElement).fields = none := rfl

/-- The constructor path for a module without checkbox inputs leaves the
fields unset. -/
theorem construct_element_no_checkbox_fields (cd : ChkDoc) (idxs : List Nat)
    (hno : ∀ i ∈ idxs, ((cd.inputs.get? i).map (fun inp => inp.typeAttr)) ≠ some "checkbox") :
    (Checkboxes.construct cd (.element idxs)).fields = none := by
  have hfil : (idxs.filter (fun i =>
      match cd.inputs.get? i with
      | some inp => inp.typeAttr = "checkbox"
      | none => False)) = [] := by
    rw [List.filter_eq_nil_iff]
    intro a ha
    cases hx : cd.inputs.get? a with
    | none => simp
    | some inp =>
      have := hno a ha
      rw [hx] at this
      simp only [Option.map_some', ne_eq, Option.some.injEq] at this
      simp [this]
  unfold Checkboxes.construct
  simp only [hfil, List.isEmpty_nil, if_true, reduceIte]

/-- `init` on an instance whose fields are unset is the identity and attaches
nothing. -/
theorem init_fields_none (c : ChkComponent) (d : ChkDoc) (h : c.fields = none) :
    Checkboxes.init c d = (d, false, false) := by
  unfold Checkboxes.init
  rw [h]

/-! ## Claim theorems -/

/-- C4: after every `checkMode` run — whether triggered by a media-query
(breakpoint) change or by a menu-button click — if the media query
matches, the menu has no `hidden` attribute and the button has `hidden`
set; otherwise the button has no `hidden` attribute, its `aria-expanded`
equals the string form of `menuIsOpen`, and the menu has `hidden` iff
`menuIsOpen` is false. A menu-button click toggles `menuIsOpen` and then
runs the same `checkMode`. -/
theorem serviceHeader_checkMode_invariant (menuOpen : Bool) (dom : SHDom) :
    (checkModeS true ⟨true, true, true, menuOpen, dom⟩).dom.menuHidden = false ∧
    (checkModeS true ⟨true, true, true, menuOpen, dom⟩).dom.buttonHidden = true ∧
    (checkModeS false ⟨true, true, true, menuOpen, dom⟩).dom.buttonHidden = false ∧
    (checkModeS false ⟨true, true, true, menuOpen, dom⟩).dom.buttonAriaExpanded
      = some (toString menuOpen) ∧
    (checkModeS false ⟨true, true, true, menuOpen, dom⟩).dom.menuHidden = !menuOpen ∧
    (∀ mq : Bool, handleMenuButtonClick mq ⟨true, true, true, menuOpen, dom⟩
      = checkModeS mq ⟨true, true, true, !menuOpen, dom⟩) :=
  ⟨rfl, rfl, rfl, rfl, rfl, fun _ => rfl⟩

/-- C5: constructing a `GOVUKFrontendComponent` throws a `SupportError` if and
only if `getSupportedLevelMessage()` returns something other than `'OK'`;
the check calls `getSupportedLevelMessage` exactly once, in the
constructor; and a subclass constructor (`ServiceHeader` via `super()`)
propagates the same error. -/
theorem govukFrontendComponent_support_check (msg : String) :
    ((GOVUKFrontendComponent.construct msg).2.isSome ↔ msg ≠ "OK") ∧
    ((GOVUKFrontendComponent.construct msg).2
      = if msg = "OK" then none else some (.supportError msg)) ∧
    (GOVUKFrontendComponent.construct msg).1 = [msg] ∧
    (∀ m ids bp mm dom, msg ≠ "OK" →
      (ServiceHeader.construct msg m ids bp mm dom).error = some (.supportError msg)) := by
  refine ⟨?_, ?_, rfl, ?_⟩
  · unfold GOVUKFrontendComponent.construct checkSupport
    by_cases h : msg = "OK"
    · simp [h]
    · simp [h]
  · unfold GOVUKFrontendComponent.construct checkSupport
    by_cases h : msg = "OK"
    · simp [h]
    · simp [h]
  · intro m ids bp mm dom h
    unfold ServiceHeader.construct
    rw [if_pos h]

theorem govukFrontendComponent_support_check_witness :
    ("nope" ≠ "OK") ∧
    (ServiceHeader.construct "nope" none [] none false ⟨false, false, none⟩).error
      = some (.supportError "nope") :=
  ⟨by decide,
    (govukFrontendComponent_support_check "nope").2.2.2 none [] none false
      ⟨false, false, none⟩ (by decide)⟩

/-- C6: `getExamples` returns an object with exactly one key per distinct
fixture name (keys are duplicate-free and are exactly the fixture
names), and each key maps to the options of the last fixture with that
name. -/
theorem getExamples_spec {α : Type} (fxs : List (ComponentFixture α)) (k : String) :
    ((getExamples fxs).map Prod.fst).Nodup ∧
    (k ∈ (getExamples fxs).map Prod.fst ↔ k ∈ fxs.map (fun f => f.name)) ∧
    getAttr (getExamples fxs) k = exampleOptionsSpec fxs k := by
  refine ⟨?_, ?_, ?_⟩
  · exact nodup_keys_getExamples_go fxs [] (by simp)
  · rw [show getExamples fxs = fxs.foldl (fun ex f => objSet ex f.name f.options) [] from rfl,
      keys_getExamples_mem fxs [] k]
    simp
  · rw [show getExamples fxs = fxs.foldl (fun ex f => objSet ex f.name f.options) [] from rfl,
      getExamples_go fxs [] k]
    rw [show getAttr ([] : List (String × α)) k = none from rfl, Option.or_none]

theorem getExamples_spec_witness :
    (((getExamples [⟨"a", 1, ""⟩, ⟨"b", 2, ""⟩, ⟨"a", 3, ""⟩]).map Prod.fst).Nodup ∧
      ("a" ∈ (getExamples [⟨"a", 1, ""⟩, ⟨"b", 2, ""⟩, ⟨"a", 3, ""⟩]).map Prod.fst ↔
        "a" ∈ [⟨"a", 1, ""⟩, ⟨"b", 2, ""⟩, (⟨"a", 3, ""⟩ : ComponentFixture Nat)].map
          (fun f => f.name)) ∧
      getAttr (getExamples [⟨"a", 1, ""⟩, ⟨"b", 2, ""⟩, ⟨"a", 3, ""⟩]) "a"
        = exampleOptionsSpec [⟨"a", 1, ""⟩, ⟨"b", 2, ""⟩, (⟨"a", 3, ""⟩ : ComponentFixture Nat)] "a") :=
  getExamples_spec [⟨"a", 1, ""⟩, ⟨"b", 2, ""⟩, ⟨"a", 3, ""⟩] "a"

/-- C1 (amended): constructing `ServiceHeader` with a null root element, or
with a toggle button whose `aria-controls` is missing (falsy), or whose
referenced menu element does not exist, throws an `ElementError`. The
`Checkboxes` constructor, by contrast, does NOT throw on a non-element
module or a module without checkbox inputs: it returns an instance with
`$module`/`$inputs` unset. -/
theorem construction_missing_element_errors
    (ids : List String) (bp : Option String) (mm : Bool) (dom : SHDom)
    (cd : ChkDoc) (idxs : List Nat) :
    (ServiceHeader.construct "OK" none ids bp mm dom).error
      = some (.elementError "Root element ($module)") ∧
    (∀ ac, jsTruthy ac = false →
      (ServiceHeader.construct "OK" (some ⟨some ⟨ac⟩⟩) ids bp mm dom).error
        = some (.elementError
            "Navigation button (govuk-js-service-header-toggle) attribute (aria-controls)")) ∧
    (∀ t, t ≠ "" → t ∉ ids →
      (ServiceHeader.construct "OK" (some ⟨some ⟨some t⟩⟩) ids bp mm dom).error
        = some (.elementError ("Navigation (ul id=" ++ t ++ ")"))) ∧
    (Checkboxes.construct cd .notElement).fields = none ∧
    ((∀ i ∈ idxs, ((cd.inputs.get? i).map (fun inp => inp.typeAttr)) ≠ some "checkbox") →
      (Checkboxes.construct cd (.element idxs)).fields = none) := by
  have h0 : ¬("OK" ≠ "OK") := fun h => h rfl
  refine ⟨?_, ?_, ?_, rfl, ?_⟩
  · unfold ServiceHeader.construct
    rw [if_neg h0]
  · intro ac hac
    unfold ServiceHeader.construct
    rw [if_neg h0]
    simp only [hac, Bool.not_false, if_true, reduceIte]
  · intro t ht htmem
    have hjt : jsTruthy (some t) = true := by simpa [jsTruthy] using ht
    have hcont : ids.contains t = false := by
      rw [contains_eq_decide_mem]
      simpa using htmem
    unfold ServiceHeader.construct
    rw [if_neg h0]
    simp only [hjt, Bool.not_true, Bool.false_eq_true, if_false, Option.getD_some, hcont,
      Bool.not_false, if_true, reduceIte]
  · exact construct_element_no_checkbox_fields cd idxs

theorem construction_missing_element_errors_witness :
    ("nav" ≠ "") ∧ ("nav" ∉ ["other"]) ∧
    (ServiceHeader.construct "OK" (some ⟨some ⟨some "nav"⟩⟩) ["other"] none false
        ⟨false, false, none⟩).error
      = some (.elementError ("Navigation (ul id=" ++ "nav" ++ ")")) ∧
    (Checkboxes.construct ⟨[⟨"text", "n", none, false, []⟩], []⟩ (.element [0])).fields
      = none := by
  refine ⟨by decide, by decide, ?_, ?_⟩
  · exact (construction_missing_element_errors ["other"] none false ⟨false, false, none⟩
      ⟨[], []⟩ []).2.2.1 "nav" (by decide) (by decide)
  · exact (construction_missing_element_errors [] none false ⟨false, false, none⟩
      ⟨[⟨"text", "n", none, false, []⟩], []⟩ [0]).2.2.2.2 (by decide)

/-- C1 counterexample: the claim says the `Checkboxes` constructor "likewise
throws such an error" for a non-element module, but the constructor has
no throwing path at all — at this concrete input it returns normally,
with `$module`/`$inputs` left unset. -/
theorem checkboxes_constructor_does_not_throw :
    Checkboxes.construct ⟨[], []⟩ ChkModuleArg.notElement = ⟨none⟩ ∧
    Checkboxes.construct ⟨[⟨"text", "n", none, false, []⟩], []⟩ (.element [0]) = ⟨none⟩ := by
  constructor
  · rfl
  · decide

/-- C8: when the module argument is not an `HTMLElement` or contains no
checkbox inputs, the constructor returns an instance with
`$module`/`$inputs` unset, and a subsequent `init()` returns immediately:
the document is unchanged and no listener is attached. -/
theorem checkboxes_ctor_init_noop (cd d : ChkDoc) (idxs : List Nat)
    (hno : ∀ i ∈ idxs, ((cd.inputs.get? i).map (fun inp => inp.typeAttr)) ≠ some "checkbox") :
    (Checkboxes.construct cd .notElement).fields = none ∧
    (Checkboxes.construct cd (.element idxs)).fields = none ∧
    Checkboxes.init (Checkboxes.construct cd .notElement) d = (d, false, false) ∧
    Checkboxes.init (Checkboxes.construct cd (.element idxs)) d = (d, false, false) := by
  have hf := construct_element_no_checkbox_fields cd idxs hno
  exact ⟨rfl, hf, rfl, init_fields_none _ d hf⟩

theorem checkboxes_ctor_init_noop_witness :
    (Checkboxes.construct ⟨[⟨"text", "n", none, false, []⟩], []⟩ .notElement).fields = none ∧
    (Checkboxes.construct ⟨[⟨"text", "n", none, false, []⟩], []⟩ (.element [0])).fields = none ∧
    Checkboxes.init (Checkboxes.construct ⟨[⟨"text", "n", none, false, []⟩], []⟩ .notElement)
      ⟨[], []⟩ = (⟨[], []⟩, false, false) ∧
    Checkboxes.init (Checkboxes.construct ⟨[⟨"text", "n", none, false, []⟩], []⟩ (.element [0]))
      ⟨[], []⟩ = (⟨[], []⟩, false, false) :=
  checkboxes_ctor_init_noop ⟨[⟨"text", "n", none, false, []⟩], []⟩ ⟨[], []⟩ [0] (by decide)

/-- C2: clicking a checkbox with `data-behaviour="exclusive"` such that the
click leaves it checked unchecks every other checkbox input with the
same name and the same form owner. -/
theorem exclusive_click_unchecks_same_name (d : ChkDoc) (i j : Nat) (inp jnp : ChkInput)
    (hgi : d.inputs.get? i = some inp)
    (htype : inp.typeAttr = "checkbox")
    (hch : inp.checked = true)
    (hexcl : getAttr inp.attrs "data-behaviour" = some "exclusive")
    (hne : j ≠ i)
    (hgj : d.inputs.get? j = some jnp)
    (hjtype : jnp.typeAttr = "checkbox")
    (hname : jnp.name = inp.name)
    (hform : jnp.form = inp.form) :
    inputChecked (handleClick d (.input i)) j = some false := by
  rw [handleClick_exclusive_eq d i inp hgi htype hch hexcl]
  obtain ⟨inp1, hgi1, hobs⟩ := syncPhase_get_self d i inp hgi
  have hn1 : inp1.name = inp.name := congrArg (fun t => t.1) hobs
  have hf1 : inp1.form = inp.form := congrArg (fun t => t.2.1) hobs
  have hgj1 : (handleClickSyncPhase d i inp).inputs.get? j = some jnp := by
    rw [syncPhase_inputs_ne d i inp j hne]
    exact hgj
  exact unCheckAllInputsExcept_unchecks _ i j inp1 jnp hgi1 hgj1 hne hjtype
    (hname.trans hn1.symm) (hform.trans hf1.symm)

def c2doc : ChkDoc :=
  ⟨[⟨"checkbox", "n", none, true, [("data-behaviour", "exclusive")]⟩,
    ⟨"checkbox", "n", none, true, []⟩], []⟩

theorem exclusive_click_unchecks_same_name_witness :
    inputChecked (handleClick c2doc (.input 0)) 1 = some false :=
  exclusive_click_unchecks_same_name c2doc 0 1
    ⟨"checkbox", "n", none, true, [("data-behaviour", "exclusive")]⟩
    ⟨"checkbox", "n", none, true, []⟩
    rfl rfl rfl (by decide) (by decide) rfl rfl rfl rfl

/-- C9: a click that leaves the clicked checkbox unchecked changes no other
input at all (in particular no other checkbox's checked state), leaves
the clicked input's checked state false, and touches no target other
than the one its own `aria-controls` points at. -/
theorem unchecking_click_frame (d : ChkDoc) (i : Nat) (inp : ChkInput)
    (hgi : d.inputs.get? i = some inp)
    (htype : inp.typeAttr = "checkbox")
    (hch : inp.checked = false) :
    (∀ j, j ≠ i → (handleClick d (.input i)).inputs.get? j = d.inputs.get? j) ∧
    inputChecked (handleClick d (.input i)) i = some false ∧
    (∀ t, findTargetIdx d ((getAttr inp.attrs "aria-controls").getD "") ≠ some t →
      (handleClick d (.input i)).targets.get? t = d.targets.get? t) := by
  rw [handleClick_unchecked_eq d i inp hgi htype hch]
  refine ⟨fun j hj => syncPhase_inputs_ne d i inp j hj, ?_, ?_⟩
  · unfold inputChecked
    rw [syncPhase_inputs_obs (fun x => x.checked) (fun _ _ => rfl) d i inp i, hgi]
    simp [hch]
  · intro t ht
    unfold handleClickSyncPhase
    split
    · refine sync_targets_frame d i t ?_
      intro inp' hinp'
      have he : inp' = inp := Option.some.inj (hinp'.symm.trans hgi)
      rw [he]
      exact ht
    · rfl

def c9doc : ChkDoc :=
  ⟨[⟨"checkbox", "n", none, false, [("aria-controls", "t")]⟩,
    ⟨"checkbox", "n", none, true, []⟩],
   [⟨"t", ["govuk-checkboxes__conditional"]⟩]⟩

theorem unchecking_click_frame_witness :
    (handleClick c9doc (.input 0)).inputs.get? 1 = c9doc.inputs.get? 1 ∧
    inputChecked (handleClick c9doc (.input 0)) 0 = some false :=
  ⟨(unchecking_click_frame c9doc 0 ⟨"checkbox", "n", none, false, [("aria-controls", "t")]⟩
      rfl rfl rfl).1 1 (by decide),
    (unchecking_click_frame c9doc 0 ⟨"checkbox", "n", none, false, [("aria-controls", "t")]⟩
      rfl rfl rfl).2.1⟩

/-- C10: clicking a checkbox without `data-behaviour="exclusive"` such that
the click leaves it checked unchecks every checkbox input with
`data-behaviour="exclusive"`, the same name and the same form owner, and
syncs each such input's conditional reveal to the unchecked state
(`aria-expanded="false"` on the input and the hidden modifier class on
its conditional target). -/
theorem nonexclusive_click_unchecks_exclusives (d : ChkDoc) (i j : Nat) (inp jnp : ChkInput)
    (hgi : d.inputs.get? i = some inp)
    (htype : inp.typeAttr = "checkbox")
    (hch : inp.checked = true)
    (hnexcl : getAttr inp.attrs "data-behaviour" ≠ some "exclusive")
    (hgj : d.inputs.get? j = some jnp)
    (hjexcl : getAttr jnp.attrs "data-behaviour" = some "exclusive")
    (hjtype : jnp.typeAttr = "checkbox")
    (hname : jnp.name = inp.name)
    (hform : jnp.form = inp.form) :
    inputChecked (handleClick d (.input i)) j = some false ∧
    (∀ tid ti, getAttr jnp.attrs "aria-controls" = some tid → tid ≠ "" →
      findTargetIdx d tid = some ti →
      targetHasClass d ti "govuk-checkboxes__conditional" = some true →
      inputAttr (handleClick d (.input i)) j "aria-expanded" = some (some "false") ∧
      targetHasClass (handleClick d (.input i)) ti "govuk-checkboxes__conditional--hidden"
        = some true) := by
  have hne : j ≠ i := by
    intro h
    subst h
    rw [hgi] at hgj
    cases Option.some.inj hgj
    exact hnexcl hjexcl
  rw [handleClick_nonexclusive_eq d i inp hgi htype hch hnexcl]
  obtain ⟨inp1, hgi1, hobs⟩ := syncPhase_get_self d i inp hgi
  have hn1 : inp1.name = inp.name := congrArg (fun t => t.1) hobs
  have hf1 : inp1.form = inp.form := congrArg (fun t => t.2.1) hobs
  have hgj1 : (handleClickSyncPhase d i inp).inputs.get? j = some jnp := by
    rw [syncPhase_inputs_ne d i inp j hne]
    exact hgj
  constructor
  · exact unCheckExclusiveInputs_unchecks _ i j inp1 jnp hgi1 hgj1 hjexcl hjtype
      (hname.trans hn1.symm) (hform.trans hf1.symm)
  · intro tid ti hac htid hfind hcond
    have hfind1 : findTargetIdx (handleClickSyncPhase d i inp) tid = some ti := by
      rw [syncPhase_findTargetIdx]
      exact hfind
    have hcond1 : targetHasClass (handleClickSyncPhase d i inp) ti
        "govuk-checkboxes__conditional" = some true := by
      unfold targetHasClass
      rw [syncPhase_targets_obs (fun x => x.classes.contains "govuk-checkboxes__conditional")
        (fun x force => toggleClass_contains_ne _ _ _ _ (by decide)) d i inp ti]
      exact hcond
    exact unCheckExclusiveInputs_reveal _ i j inp1 jnp tid ti hgi1 hgj1 hjexcl hjtype
      (hname.trans hn1.symm) (hform.trans hf1.symm) hac htid hfind1 hcond1

def c10doc : ChkDoc :=
  ⟨[⟨"checkbox", "n", none, true, []⟩,
    ⟨"checkbox", "n", none, true, [("data-behaviour", "exclusive"), ("aria-controls", "t")]⟩],
   [⟨"t", ["govuk-checkboxes__conditional"]⟩]⟩

theorem nonexclusive_click_unchecks_exclusives_witness :
    inputChecked (handleClick c10doc (.input 0)) 1 = some false ∧
    inputAttr (handleClick c10doc (.input 0)) 1 "aria-expanded" = some (some "false") ∧
    targetHasClass (handleClick c10doc (.input 0)) 0 "govuk-checkboxes__conditional--hidden"
      = some true := by
  have h := nonexclusive_click_unchecks_exclusives c10doc 0 1
    ⟨"checkbox", "n", none, true, []⟩
    ⟨"checkbox", "n", none, true, [("data-behaviour", "exclusive"), ("aria-controls", "t")]⟩
    rfl rfl rfl (by decide) rfl (by decide) rfl rfl rfl
  exact ⟨h.1, (h.2 "t" 0 (by decide) (by decide) (by decide) (by decide)).1,
    (h.2 "t" 0 (by decide) (by decide) (by decide) (by decide)).2⟩

/-- C3 (amended): `Checkboxes.init` promotes `data-aria-controls` to
`aria-controls`: every instance input whose `data-aria-controls` names an
existing element ends up with `aria-controls` equal to that id and its
`data-aria-controls` removed; an input whose `data-aria-controls` is
absent (falsy) or whose target does not exist keeps both its
`data-aria-controls` and its `aria-controls` attributes unchanged
(though `init` may still set `aria-expanded` while syncing conditional
reveals). -/
theorem init_promotes_data_aria_controls (d : ChkDoc) (idxs : List Nat)
    (i : Nat) (hi : i ∈ idxs) (inp : ChkInput)
    (hget : d.inputs.get? i = some inp) :
    (∀ tid, getAttr inp.attrs "data-aria-controls" = some tid → tid ≠ "" →
      (findTargetIdx d tid).isSome →
      inputAttr (Checkboxes.init ⟨some idxs⟩ d).1 i "aria-controls" = some (some tid) ∧
      inputAttr (Checkboxes.init ⟨some idxs⟩ d).1 i "data-aria-controls" = some none) ∧
    (∀ o1, getAttr inp.attrs "data-aria-controls" = o1 →
      (jsTruthy o1 = false ∨ findTargetIdx d (o1.getD "") = none) →
      inputAttr (Checkboxes.init ⟨some idxs⟩ d).1 i "data-aria-controls" = some o1 ∧
      inputAttr (Checkboxes.init ⟨some idxs⟩ d).1 i "aria-controls"
        = some (getAttr inp.attrs "aria-controls")) := by
  simp only [init_doc_eq]
  constructor
  · intro tid hdac htid hfind
    have hp := promote_fold_promoted idxs d i inp tid hi hget hdac htid hfind
    constructor
    · rw [syncAll_inputAttr_ne idxs _ i "aria-controls" (by decide)]
      exact hp.1
    · rw [syncAll_inputAttr_ne idxs _ i "data-aria-controls" (by decide)]
      exact hp.2
  · intro o1 hdac hskip
    have h1 : inputAttr d i "data-aria-controls" = some o1 := by
      unfold inputAttr
      rw [hget]
      simp [hdac]
    have h2 : inputAttr d i "aria-controls" = some (getAttr inp.attrs "aria-controls") := by
      unfold inputAttr
      rw [hget]
      rfl
    have hu := promote_fold_unchanged idxs d i o1 (getAttr inp.attrs "aria-controls") h1 h2 hskip
    constructor
    · rw [syncAll_inputAttr_ne idxs _ i "data-aria-controls" (by decide)]
      exact hu.1
    · rw [syncAll_inputAttr_ne idxs _ i "aria-controls" (by decide)]
      exact hu.2

def c3doc : ChkDoc :=
  ⟨[⟨"checkbox", "n", none, false, [("aria-controls", "t")]⟩],
   [⟨"t", ["govuk-checkboxes__conditional"]⟩]⟩

/-- C3 counterexample: an input without a `data-aria-controls` attribute is
NOT left unchanged by `init` — syncing conditional reveals sets its
`aria-expanded` attribute (and hides its target), so the claim's
"inputs without the attribute ... are left unchanged" fails at this
concrete document. -/
theorem init_changes_input_without_data_aria_controls :
    (Checkboxes.init (Checkboxes.construct c3doc (.element [0])) c3doc).1.inputs.get? 0 ≠
      c3doc.inputs.get? 0 := by decide

def c3doc2 : ChkDoc :=
  ⟨[⟨"checkbox", "n", none, false, [("data-aria-controls", "t")]⟩],
   [⟨"t", ["govuk-checkboxes__conditional"]⟩]⟩

theorem init_promotes_data_aria_controls_witness :
    inputAttr (Checkboxes.init ⟨some [0]⟩ c3doc2).1 0 "aria-controls" = some (some "t") ∧
    inputAttr (Checkboxes.init ⟨some [0]⟩ c3doc2).1 0 "data-aria-controls" = some none :=
  (init_promotes_data_aria_controls c3doc2 [0] 0 (by decide)
    ⟨"checkbox", "n", none, false, [("data-aria-controls", "t")]⟩ rfl).1 "t"
    (by decide) (by decide) (by decide)

/-- C7: whenever the ServiceHeader constructor throws an `ElementError`
(including the missing-breakpoint error raised inside
`setupResponsiveChecks`), the throw happens before any event listener is
attached and before any DOM attribute is modified: the document is left
exactly as it was, neither the media-query listener nor the click
listener is attached, and no instance is produced. -/
theorem serviceHeader_ctor_error_atomic (msg : String) (m : Option SHModule)
    (ids : List String) (bp : Option String) (mm : Bool) (dom : SHDom) (ident : String)
    (herr : (ServiceHeader.construct msg m ids bp mm dom).error
      = some (.elementError ident)) :
    (ServiceHeader.construct msg m ids bp mm dom).dom = dom ∧
    (ServiceHeader.construct msg m ids bp mm dom).mqlListenerAttached = false ∧
    (ServiceHeader.construct msg m ids bp mm dom).clickListenerAttached = false ∧
    (ServiceHeader.construct msg m ids bp mm dom).component = none := by
  unfold ServiceHeader.construct at herr ⊢
  by_cases hmsg : msg ≠ "OK"
  · rw [if_pos hmsg] at herr
    simp at herr
  · rw [if_neg hmsg] at herr ⊢
    cases m with
    | none => exact ⟨rfl, rfl, rfl, rfl⟩
    | some mod =>
      obtain ⟨mb⟩ := mod
      cases mb with
      | none => simp at herr
      | some btn =>
        by_cases hac : jsTruthy btn.ariaControls = true
        · simp only [hac, Bool.not_true, Bool.false_eq_true, if_false, reduceIte] at herr ⊢
          by_cases hct : ids.contains (btn.ariaControls.getD "") = true
          · simp only [hct, Bool.not_true, Bool.false_eq_true, if_false, reduceIte] at herr ⊢
            unfold setupResponsiveChecks at herr ⊢
            by_cases hbp : jsTruthy bp = true
            · simp only [hbp, Bool.not_true, Bool.false_eq_true, if_false, reduceIte]
                at herr ⊢
              simp at herr
            · have hbp' : jsTruthy bp = false := Bool.eq_false_iff.2 hbp
              simp only [hbp', Bool.not_false, if_true, reduceIte] at herr ⊢
              simp
          · have hct' : ids.contains (btn.ariaControls.getD "") = false :=
              Bool.eq_false_iff.2 hct
            simp only [hct', Bool.not_false, if_true, reduceIte] at herr ⊢
            simp
        · have hac' : jsTruthy btn.ariaControls = false := Bool.eq_false_iff.2 hac
          simp only [hac', Bool.not_false, if_true, reduceIte] at herr ⊢
          simp

theorem serviceHeader_ctor_error_atomic_witness :
    (ServiceHeader.construct "OK" (some ⟨some ⟨none⟩⟩) [] none true
        ⟨true, true, some "x"⟩).dom = ⟨true, true, some "x"⟩ ∧
    (ServiceHeader.construct "OK" (some ⟨some ⟨none⟩⟩) [] none true
        ⟨true, true, some "x"⟩).mqlListenerAttached = false ∧
    (ServiceHeader.construct "OK" (some ⟨some ⟨none⟩⟩) [] none true
        ⟨true, true, some "x"⟩).clickListenerAttached = false ∧
    (ServiceHeader.construct "OK" (some ⟨some ⟨none⟩⟩) [] none true
        ⟨true, true, some "x"⟩).component = none :=
  serviceHeader_ctor_error_atomic "OK" (some ⟨some ⟨none⟩⟩) [] none true
    ⟨true, true, some "x"⟩
    "Navigation button (govuk-js-service-header-toggle) attribute (aria-controls)"
    (by decide)

end GovukFrontend
